import Mathlib

/-!
Verification of the lets-fps simulation core: exact-rational shallow embedding
of the physics / projectile / network-reconciliation code, plus a JS-number
(NaN / infinity) embedding for the validation routines.

Sources embedded:
- src/src/game/physics.js        (PlayerPhysics: reset, applyImpulse,
                                  resolveSphereCollision, resolvePlayerCollisions,
                                  _closestPointSegmentToSegment)
- src/unnamed/part_003           (GameEngine: createProjectile, resolveRemoteCollisions)
- src/src/game/multiplayer.js    (broadcastPosition)
- src/unnamed/part_001           (PlayerController: shoot owner tag, applyKnockback)
- src/src/game/remotePlayers.js  (getRemoteColliders, loadPlayerModel radius)
- src/src/game/constants.js      (MODELS)

Real arithmetic is modelled by exact rationals; `Math.sqrt` is an explicit
function parameter `sq : ℚ → ℚ` so every statement quantifies over the
square-root implementation.  JavaScript NaN / ±Infinity semantics, where a
claim depends on them, are modelled by the `JSNum` type.
-/

namespace LetsFPS

/-! ### Rational 3-vectors (THREE.Vector3 over exact scalars) -/

structure Vec3 where
  x : ℚ
  y : ℚ
  z : ℚ
deriving DecidableEq, Repr

def vadd (u v : Vec3) : Vec3 := ⟨u.x + v.x, u.y + v.y, u.z + v.z⟩

def vsub (u v : Vec3) : Vec3 := ⟨u.x - v.x, u.y - v.y, u.z - v.z⟩

def vneg (u : Vec3) : Vec3 := ⟨-u.x, -u.y, -u.z⟩

def vscale (s : ℚ) (v : Vec3) : Vec3 := ⟨s * v.x, s * v.y, s * v.z⟩

def dot (u v : Vec3) : ℚ := u.x * v.x + u.y * v.y + u.z * v.z

def lengthSq (v : Vec3) : ℚ := dot v v

/-- `u.addScaledVector(v, s)` -/
def addScaled (u v : Vec3) (s : ℚ) : Vec3 := vadd u (vscale s v)

/-- `u.distanceToSquared(v)` -/
def distSqV (u v : Vec3) : ℚ := lengthSq (vsub u v)

def vzero : Vec3 := ⟨0, 0, 0⟩

/-- `THREE.Vector3.normalize`: `divideScalar(this.length() || 1)`; the length
is the square root of `lengthSq`, taken through the explicit `sq` parameter. -/
def vnormalize (sq : ℚ → ℚ) (v : Vec3) : Vec3 :=
  let l := sq (lengthSq v)
  if l = 0 then v else vscale l⁻¹ v

/-- `Math.max(0.0, Math.min(1.0, t))` -/
def clamp01 (t : ℚ) : ℚ := max 0 (min 1 t)

/-- `THREE.Line3.closestPointToPoint(point, true, target)`: the clamped
parametric projection of `p` onto the segment from `s` to `e`. -/
def closestPointOnSegment (s e p : Vec3) : Vec3 :=
  let d := vsub e s
  let t := clamp01 (dot d (vsub p s) / dot d d)
  addScaled s d t

/-! ### PlayerPhysics state (physics.js) -/

structure Capsule where
  start : Vec3
  endP : Vec3
  radius : ℚ
deriving DecidableEq, Repr

structure PlayerState where
  collider : Capsule
  velocity : Vec3
  onFloor : Bool
deriving DecidableEq, Repr

/-- `PlayerPhysics.reset` (physics.js lines 23-30). -/
def resetState : PlayerState :=
  { collider := ⟨⟨0, 5, 0⟩, ⟨0, 113/20, 0⟩, 7/20⟩
    velocity := vzero
    onFloor := false }

/-- `PlayerPhysics.applyImpulse` (physics.js lines 82-85). -/
def applyImpulse (impulse : Vec3) (p : PlayerState) : PlayerState :=
  { p with velocity := vadd p.velocity impulse, onFloor := false }

/-! ### Projectiles (GameEngine, src/unnamed/part_003) -/

structure Sphere where
  center : Vec3
  radius : ℚ
  velocity : Vec3
  owner : Option String
  spawnTime : ℚ
  lifetime : ℚ
  hitSet : List String
deriving DecidableEq, Repr

/-- Body of `PlayerPhysics.resolveSphereCollision` after the self-hit guard
(physics.js lines 177-237).  The avatar is kinematic: only the sphere's
velocity and center are written. -/
def resolveSphereCollisionCore (sq : ℚ → ℚ) (p : PlayerState) (s : Sphere) :
    PlayerState × Sphere :=
  let closestPoint := closestPointOnSegment p.collider.start p.collider.endP s.center
  let r := p.collider.radius + s.radius
  let r2 := r * r
  let d2 := distSqV closestPoint s.center
  if d2 < r2 then
    let dist := sq d2
    let normalVector :=
      if dist < 1 / 1000000 then (⟨1, 0, 0⟩ : Vec3)
      else vnormalize sq (vsub closestPoint s.center)
    let vRel := vsub p.velocity s.velocity
    let vRelDotN := dot vRel normalVector
    let newVel :=
      if vRelDotN < 0 then
        let j := -(1 + 3/5) * vRelDotN * 1
        let impulse := vscale (-j) normalVector
        let v2 := vadd s.velocity impulse
        if lengthSq v2 > 2500 then vscale 50 (vnormalize sq v2) else v2
      else s.velocity
    let overlap := r - dist
    let center2 := addScaled s.center normalVector (-overlap)
    (p, { s with velocity := newVel, center := center2 })
  else (p, s)

/-- `PlayerPhysics.resolveSphereCollision` (physics.js lines 173-238), with
`performance.now()` passed explicitly as `now`. -/
def resolveSphereCollision (sq : ℚ → ℚ) (now : ℚ) (p : PlayerState) (s : Sphere) :
    PlayerState × Sphere :=
  if s.owner = some "local" ∧ now - s.spawnTime < 200 then (p, s)
  else resolveSphereCollisionCore sq p s

/-- `GameEngine.createProjectile` (part_003 lines 277-309): constructs a
sphere and pushes it into the pool, evicting the head past 100.  The pair
carries the constructed (pooled) sphere and the updated pool.  Note that the
JS function body contains no `return` statement, so the JS call expression
itself evaluates to `undefined` — see `createProjectileReturned`. -/
def createProjectile (now : ℚ) (position velocity : Vec3) (pool : List Sphere) :
    Sphere × List Sphere :=
  let sphere : Sphere :=
    { center := position, radius := 1/5, velocity := velocity, owner := none
      spawnTime := now, lifetime := 40000, hitSet := [] }
  let pool2 := pool ++ [sphere]
  (sphere, if pool2.length > 100 then pool2.tail else pool2)

/-- The value of the call expression `this.engine.createProjectile(...)` as
seen by `PlayerController.shoot` (part_001 line 326): `undefined`, because
`createProjectile` (part_003 lines 277-309) has no `return` statement. -/
def createProjectileReturned : Option Sphere := none

/-- The projectile part of `PlayerController.shoot` (part_001 lines 326-327):
`const sphere = this.engine.createProjectile(...)` binds `undefined`, so the
guarded tag `if (sphere) sphere.owner = 'local'` never executes; the new
pool is exactly `createProjectile`'s pool, whose freshly pushed sphere keeps
`owner := none`. -/
def shootProjectile (now : ℚ) (position velocity : Vec3) (pool : List Sphere) :
    List Sphere :=
  (createProjectile now position velocity pool).2

/-! ### Theorems for C1 and C6 -/

/-- C1: every `resolveSphereCollision` call leaves the local avatar's state
(bit-identically) unchanged — collider, velocity and floor flag — and mutates
only the projectile's velocity and center: its radius, owner, spawn time,
lifetime and hit-set are returned unchanged.  This holds for every square-root
implementation, every call time, and in particular when the relative velocity
along the contact normal is closing. -/
theorem resolveSphereCollision_avatar_kinematic (sq : ℚ → ℚ) (now : ℚ)
    (p : PlayerState) (s : Sphere) :
    (resolveSphereCollision sq now p s).1 = p ∧
    (resolveSphereCollision sq now p s).2.radius = s.radius ∧
    (resolveSphereCollision sq now p s).2.owner = s.owner ∧
    (resolveSphereCollision sq now p s).2.spawnTime = s.spawnTime ∧
    (resolveSphereCollision sq now p s).2.lifetime = s.lifetime ∧
    (resolveSphereCollision sq now p s).2.hitSet = s.hitSet := by
  unfold resolveSphereCollision resolveSphereCollisionCore
  split
  · exact ⟨rfl, rfl, rfl, rfl, rfl, rfl⟩
  · dsimp only
    split
    · exact ⟨rfl, rfl, rfl, rfl, rfl, rfl⟩
    · exact ⟨rfl, rfl, rfl, rfl, rfl, rfl⟩

/-- A concrete square-root implementation used by the C5 and C6 concrete
runs: correct on the values those traces take square roots of. -/
def sqWitness : ℚ → ℚ := fun q => if q = 1/16 then 1/4 else if q = 100 then 10 else 1

/-- C6 (code bug): `createProjectile` has no `return` statement, so the
`sphere` binding in `shoot` is `undefined` and `if (sphere)
sphere.owner = 'local'` (the program's only owner assignment) never
executes: (i) the projectile a local shoot leaves in the pool carries no
`'local'` owner tag; (ii) consequently the 200 ms self-hit grace guard
`sphere.owner === 'local' && age < 200` in `resolveSphereCollision` is dead
for it — at the failing input (a freshly shot projectile overlapping the
avatar at spawn, resolved at age 0 ms) the projectile is already mutated
(velocity reflected from (-5,0,0) to (3,0,0) and center pushed out), contrary
to the claimed grace period. -/
theorem shoot_projectile_no_grace :
    (createProjectileReturned = none) ∧
    (shootProjectile 0 ⟨1/4, 11/2, 0⟩ ⟨-5, 0, 0⟩ []
      = [{ center := ⟨1/4, 11/2, 0⟩, radius := 1/5, velocity := ⟨-5, 0, 0⟩, owner := none
           spawnTime := 0, lifetime := 40000, hitSet := [] }]) ∧
    (∀ s ∈ shootProjectile 0 ⟨1/4, 11/2, 0⟩ ⟨-5, 0, 0⟩ [], s.owner ≠ some "local") ∧
    ((resolveSphereCollision sqWitness 0 resetState
        { center := ⟨1/4, 11/2, 0⟩, radius := 1/5, velocity := ⟨-5, 0, 0⟩, owner := none
          spawnTime := 0, lifetime := 40000, hitSet := [] }).2.velocity = ⟨3, 0, 0⟩) ∧
    ((resolveSphereCollision sqWitness 0 resetState
        { center := ⟨1/4, 11/2, 0⟩, radius := 1/5, velocity := ⟨-5, 0, 0⟩, owner := none
          spawnTime := 0, lifetime := 40000, hitSet := [] }).2
      ≠ { center := ⟨1/4, 11/2, 0⟩, radius := 1/5, velocity := ⟨-5, 0, 0⟩, owner := none
          spawnTime := 0, lifetime := 40000, hitSet := [] }) := by
  have hpool : shootProjectile 0 ⟨1/4, 11/2, 0⟩ ⟨-5, 0, 0⟩ []
      = [{ center := ⟨1/4, 11/2, 0⟩, radius := 1/5, velocity := ⟨-5, 0, 0⟩, owner := none
           spawnTime := 0, lifetime := 40000, hitSet := [] }] := rfl
  have hvel : (resolveSphereCollision sqWitness 0 resetState
      { center := ⟨1/4, 11/2, 0⟩, radius := 1/5, velocity := ⟨-5, 0, 0⟩, owner := none
        spawnTime := 0, lifetime := 40000, hitSet := [] }).2.velocity = ⟨3, 0, 0⟩ := by
    unfold resolveSphereCollision
    rw [if_neg (by simp)]
    unfold resolveSphereCollisionCore
    norm_num [closestPointOnSegment, clamp01, distSqV, lengthSq, dot, vsub, vadd, vscale,
      addScaled, vnormalize, resetState, vzero, sqWitness]
  refine ⟨rfl, hpool, ?_, hvel, ?_⟩
  · intro s hs
    rw [hpool] at hs
    rw [List.mem_singleton.mp hs]
    simp
  · intro heq
    rw [heq] at hvel
    have hx := congrArg Vec3.x hvel
    norm_num at hx

/-! ### C3: projectile pool cap and FIFO eviction -/

/-- C3: after any `createProjectile` call on a pool that respected the cap,
the pool again holds at most 100 projectiles; and when the pool was full
(length 100), the evicted projectile is exactly the list head — the oldest
surviving projectile, i.e. the one with the smallest spawn time, given that
spawn times are nondecreasing in insertion order and the clock is monotone. -/
theorem createProjectile_pool_cap (now : ℚ) (pos vel : Vec3) (pool : List Sphere)
    (hlen : pool.length ≤ 100)
    (hsorted : List.Pairwise (fun a b => a.spawnTime ≤ b.spawnTime) pool)
    (hnow : ∀ q ∈ pool, q.spawnTime ≤ now) :
    ((createProjectile now pos vel pool).2.length ≤ 100) ∧
    (∀ hd tl, pool = hd :: tl → pool.length = 100 →
      (createProjectile now pos vel pool).2 = tl ++ [(createProjectile now pos vel pool).1] ∧
      ∀ q ∈ pool ++ [(createProjectile now pos vel pool).1], hd.spawnTime ≤ q.spawnTime) := by
  constructor
  · unfold createProjectile
    dsimp only
    split
    · rw [List.length_tail]
      simp only [List.length_append, List.length_singleton]
      omega
    · next hc =>
      simp only [List.length_append, List.length_singleton] at hc ⊢
      omega
  · intro hd tl hpool hlen100
    constructor
    · conv_lhs => unfold createProjectile
      dsimp only
      rw [if_pos (by simp [hlen100]), hpool]
      simp only [List.cons_append, List.tail_cons]
      rfl
    · intro q hq
      rcases List.mem_append.mp hq with hq | hq
      · rw [hpool] at hq hsorted
        rcases List.mem_cons.mp hq with rfl | hq
        · exact le_refl _
        · exact (List.pairwise_cons.mp hsorted).1 q hq
      · have hqe : q = (createProjectile now pos vel pool).1 := List.mem_singleton.mp hq
        have : (createProjectile now pos vel pool).1.spawnTime = now := rfl
        rw [hqe, this]
        exact hnow hd (hpool ▸ List.mem_cons_self hd tl)

def witnessSphere : Sphere :=
  { center := vzero, radius := 1/5, velocity := vzero, owner := none
    spawnTime := 0, lifetime := 40000, hitSet := [] }

lemma pairwise_replicate_of_self {α : Type} (R : α → α → Prop) (a : α) (h : R a a) :
    ∀ n, List.Pairwise R (List.replicate n a)
  | 0 => List.Pairwise.nil
  | n + 1 => by
    rw [List.replicate_succ]
    exact List.Pairwise.cons
      (fun b hb => by rw [List.eq_of_mem_replicate hb]; exact h)
      (pairwise_replicate_of_self R a h n)

/-- Witness for C3: a full pool of 100 projectiles stays at 100 after a new
insertion, and the insertion evicts the head. -/
theorem createProjectile_pool_cap_witness :
    ((createProjectile 5 vzero vzero (List.replicate 100 witnessSphere)).2.length ≤ 100) ∧
    (createProjectile 5 vzero vzero (List.replicate 100 witnessSphere)).2
      = (List.replicate 99 witnessSphere)
        ++ [(createProjectile 5 vzero vzero (List.replicate 100 witnessSphere)).1] := by
  have h := createProjectile_pool_cap 5 vzero vzero (List.replicate 100 witnessSphere)
    (by simp)
    (pairwise_replicate_of_self (fun a b => a.spawnTime ≤ b.spawnTime) witnessSphere
      (le_refl _) 100)
    (by intro q hq; rw [List.eq_of_mem_replicate hq]; norm_num [witnessSphere])
  refine ⟨h.1, ?_⟩
  exact (h.2 witnessSphere (List.replicate 99 witnessSphere)
    (by rw [show (100 : ℕ) = 99 + 1 from rfl, List.replicate_succ])
    (by simp)).1

/-! ### Remote-avatar collisions and knockback events (part_003 lines 181-243) -/

structure RemoteSeg where
  id : String
  start : Option Vec3
  endP : Option Vec3
  radius : ℚ
deriving DecidableEq, Repr

structure HitEvent where
  id : String
  impulse : Vec3
deriving DecidableEq, Repr

/-- Knockback impulse computation (part_003 lines 230-237): negate the contact
normal, cap the speed contribution at 50, add the fixed upward bias 0.5 to the
y axis, renormalize and scale by the magnitude `15 + 0.5 * speed`. -/
def emitKnockback (sq : ℚ → ℚ) (normal vel : Vec3) : Vec3 :=
  let impulseDir := vneg normal
  let speed := min (sq (lengthSq vel)) 50
  let impulseMag := 15 + speed * (1/2)
  let biased : Vec3 := ⟨impulseDir.x, impulseDir.y + 1/2, impulseDir.z⟩
  vscale impulseMag (vnormalize sq biased)

/-- One iteration of the `resolveRemoteCollisions` loop body (part_003 lines
186-242); `cb` is whether `this.onProjectileHit` is set.  Returns the updated
sphere and the knockback events emitted by this iteration. -/
def remoteCollisionStep (sq : ℚ → ℚ) (cb : Bool) (s : Sphere) (remote : RemoteSeg) :
    Sphere × List HitEvent :=
  match remote.start, remote.endP with
  | some rs, some re =>
    let closestPoint := closestPointOnSegment rs re s.center
    let r := remote.radius + s.radius
    let d2 := distSqV closestPoint s.center
    if d2 < r * r then
      let normal0 := vnormalize sq (vsub s.center closestPoint)
      let normal := if lengthSq normal0 = 0 then (⟨0, 1, 0⟩ : Vec3) else normal0
      let vDotN := dot s.velocity normal
      let vel2 := addScaled s.velocity normal (-vDotN * (3/2))
      let d := sq d2
      let overlap := r - d
      let center2 := addScaled s.center normal overlap
      if cb = true ∧ remote.id ∉ s.hitSet then
        ({ s with velocity := vel2, center := center2, hitSet := remote.id :: s.hitSet },
          [⟨remote.id, emitKnockback sq normal vel2⟩])
      else ({ s with velocity := vel2, center := center2 }, [])
    else (s, [])
  | _, _ => (s, [])

/-- `GameEngine.resolveRemoteCollisions` (part_003 lines 181-243): fold the
loop body over the remote collider list, concatenating emitted events. -/
def resolveRemoteCollisions (sq : ℚ → ℚ) (cb : Bool) :
    Sphere → List RemoteSeg → Sphere × List HitEvent
  | s, [] => (s, [])
  | s, remote :: rest =>
    let r1 := remoteCollisionStep sq cb s remote
    let r2 := resolveRemoteCollisions sq cb r1.1 rest
    (r2.1, r1.2 ++ r2.2)

/-- Repeated substeps: each simulation substep first lets the rest of the
pipeline (integration, world bounce, local-avatar collision, sphere-sphere
exchange) rewrite the projectile's center and velocity arbitrarily — none of
those passes touches the hit-set — and then calls `resolveRemoteCollisions`
with that substep's remote collider snapshot. -/
def runRemoteSubsteps (sq : ℚ → ℚ) (cb : Bool) :
    Sphere → List (Vec3 × Vec3 × List RemoteSeg) → Sphere × List HitEvent
  | s, [] => (s, [])
  | s, step :: rest =>
    let s1 := { s with center := step.1, velocity := step.2.1 }
    let r1 := resolveRemoteCollisions sq cb s1 step.2.2
    let r2 := runRemoteSubsteps sq cb r1.1 rest
    (r2.1, r1.2 ++ r2.2)

/-- 1 when `r` is already in the hit-set, else 0. -/
def hitMark (hs : List String) (r : String) : ℕ := if r ∈ hs then 1 else 0

lemma hitMark_le_one (hs : List String) (r : String) : hitMark hs r ≤ 1 := by
  unfold hitMark; split <;> norm_num

/-- The loop body either leaves the hit-set alone and emits nothing, or — on a
first contact — conses the remote id onto the hit-set and emits exactly one
event carrying that id. -/
lemma remoteCollisionStep_cases (sq : ℚ → ℚ) (cb : Bool) (s : Sphere)
    (remote : RemoteSeg) :
    ((remoteCollisionStep sq cb s remote).1.hitSet = s.hitSet ∧
      (remoteCollisionStep sq cb s remote).2 = []) ∨
    (remote.id ∉ s.hitSet ∧
      (remoteCollisionStep sq cb s remote).1.hitSet = remote.id :: s.hitSet ∧
      ∃ imp, (remoteCollisionStep sq cb s remote).2 = [⟨remote.id, imp⟩]) := by
  unfold remoteCollisionStep
  rcases remote.start with _ | rs <;> rcases remote.endP with _ | re <;> dsimp only
  · exact Or.inl ⟨rfl, rfl⟩
  · exact Or.inl ⟨rfl, rfl⟩
  · exact Or.inl ⟨rfl, rfl⟩
  · split
    · split
      · next hguard => exact Or.inr ⟨hguard.2, rfl, _, rfl⟩
      · exact Or.inl ⟨rfl, rfl⟩
    · exact Or.inl ⟨rfl, rfl⟩

lemma remoteCollisionStep_hit (sq : ℚ → ℚ) (cb : Bool) (s : Sphere)
    (remote : RemoteSeg) (r : String) :
    ((remoteCollisionStep sq cb s remote).2.countP (fun e => decide (e.id = r)))
        + hitMark s.hitSet r
      ≤ hitMark (remoteCollisionStep sq cb s remote).1.hitSet r := by
  rcases remoteCollisionStep_cases sq cb s remote with ⟨h1, h2⟩ | ⟨hnot, h1, imp, h2⟩
  · rw [h1, h2]
    simp
  · rw [h1, h2]
    by_cases hr : remote.id = r
    · subst hr
      simp [hitMark, hnot, List.countP_cons]
    · have hmem : (r ∈ remote.id :: s.hitSet) ↔ (r ∈ s.hitSet) := by
        constructor
        · intro h
          rcases List.mem_cons.mp h with h | h
          · exact absurd h.symm hr
          · exact h
        · exact fun h => List.mem_cons_of_mem _ h
      simp only [List.countP_cons, List.countP_nil, hitMark, hmem, hr]
      simp

lemma resolveRemoteCollisions_hit (sq : ℚ → ℚ) (cb : Bool) (s : Sphere)
    (colliders : List RemoteSeg) (r : String) :
    ((resolveRemoteCollisions sq cb s colliders).2.countP (fun e => decide (e.id = r)))
        + hitMark s.hitSet r
      ≤ hitMark (resolveRemoteCollisions sq cb s colliders).1.hitSet r := by
  induction colliders generalizing s with
  | nil => simp [resolveRemoteCollisions]
  | cons remote rest ih =>
    have h1 := remoteCollisionStep_hit sq cb s remote r
    have h2 := ih (remoteCollisionStep sq cb s remote).1
    unfold resolveRemoteCollisions
    dsimp only
    rw [List.countP_append]
    omega

lemma runRemoteSubsteps_hit (sq : ℚ → ℚ) (cb : Bool) (s : Sphere)
    (substeps : List (Vec3 × Vec3 × List RemoteSeg)) (r : String) :
    ((runRemoteSubsteps sq cb s substeps).2.countP (fun e => decide (e.id = r)))
        + hitMark s.hitSet r
      ≤ hitMark (runRemoteSubsteps sq cb s substeps).1.hitSet r := by
  induction substeps generalizing s with
  | nil => simp [runRemoteSubsteps]
  | cons step rest ih =>
    have h1 := resolveRemoteCollisions_hit sq cb
      { s with center := step.1, velocity := step.2.1 } step.2.2 r
    have h2 := ih (resolveRemoteCollisions sq cb
      { s with center := step.1, velocity := step.2.1 } step.2.2).1
    unfold runRemoteSubsteps
    dsimp only
    rw [List.countP_append]
    have hsame : hitMark ({ s with center := step.1, velocity := step.2.1 } : Sphere).hitSet r
        = hitMark s.hitSet r := rfl
    omega

/-- C2: a projectile freshly created by `createProjectile` (empty hit-set)
emits at most one knockback event for any given remote id over its entire
lifetime, across arbitrarily many substeps of continued overlap with that
remote's capsule. -/
theorem projectile_knockback_once (sq : ℚ → ℚ) (cb : Bool) (now : ℚ)
    (pos vel : Vec3) (pool : List Sphere)
    (substeps : List (Vec3 × Vec3 × List RemoteSeg)) (r : String) :
    ((runRemoteSubsteps sq cb (createProjectile now pos vel pool).1 substeps).2.countP
      (fun e => decide (e.id = r))) ≤ 1 := by
  have h := runRemoteSubsteps_hit sq cb (createProjectile now pos vel pool).1 substeps r
  have h0 : hitMark (createProjectile now pos vel pool).1.hitSet r = 0 := by
    unfold hitMark createProjectile
    simp
  have h1 := hitMark_le_one
    (runRemoteSubsteps sq cb (createProjectile now pos vel pool).1 substeps).1.hitSet r
  omega

/-! ### Outbound position broadcast (multiplayer.js lines 140-177) -/

def BROADCAST_INTERVAL_MS : ℚ := 1000 / 30

structure MPState where
  channelOpen : Bool
  lastBroadcastTime : ℚ
  lastPosition : Vec3
deriving DecidableEq, Repr

/-- `MultiplayerManager.broadcastPosition` (multiplayer.js lines 140-177),
with `performance.now()` passed as `now` and `state.position` as `pos`.
Returns the updated manager state and whether a message was sent. -/
def broadcastPosition (m : MPState) (now : ℚ) (pos : Vec3) (force : Bool) :
    MPState × Bool :=
  if m.channelOpen = false then (m, false)
  else if force = false ∧ now - m.lastBroadcastTime < BROADCAST_INTERVAL_MS then (m, false)
  else if (¬ (|pos.x - m.lastPosition.x| > 1/100 ∨ |pos.y - m.lastPosition.y| > 1/100 ∨
      |pos.z - m.lastPosition.z| > 1/100)) ∧ force = false then (m, false)
  else ({ m with lastBroadcastTime := now, lastPosition := pos }, true)

/-- Run a sequence of `broadcastPosition` calls `(now, pos, force)`, collecting
the timestamps at which a message was actually sent. -/
def runBroadcasts (m : MPState) : List (ℚ × Vec3 × Bool) → List ℚ
  | [] => []
  | c :: rest =>
    let r := broadcastPosition m c.1 c.2.1 c.2.2
    if r.2 then c.1 :: runBroadcasts r.1 rest else runBroadcasts r.1 rest

/-- An unforced `broadcastPosition` call either returns the state unchanged
with no send, or sends: and then the throttle has elapsed and the state
records the send time. -/
lemma broadcastPosition_send_cases (m : MPState) (now : ℚ) (pos : Vec3) :
    (broadcastPosition m now pos false = (m, false)) ∨
    (broadcastPosition m now pos false
        = ({ m with lastBroadcastTime := now, lastPosition := pos }, true) ∧
      m.lastBroadcastTime + BROADCAST_INTERVAL_MS ≤ now) := by
  unfold broadcastPosition
  by_cases h1 : m.channelOpen = false
  · exact Or.inl (by rw [if_pos h1])
  · rw [if_neg h1]
    by_cases h2 : now - m.lastBroadcastTime < BROADCAST_INTERVAL_MS
    · exact Or.inl (by rw [if_pos ⟨rfl, h2⟩])
    · rw [if_neg (fun h => h2 h.2)]
      by_cases h3 : ¬ (|pos.x - m.lastPosition.x| > 1/100 ∨ |pos.y - m.lastPosition.y| > 1/100 ∨
          |pos.z - m.lastPosition.z| > 1/100)
      · exact Or.inl (by rw [if_pos ⟨h3, rfl⟩])
      · refine Or.inr ⟨by rw [if_neg (fun h => h3 h.1)], ?_⟩
        linarith [not_lt.mp h2]

lemma runBroadcasts_gap (m : MPState) (calls : List (ℚ × Vec3 × Bool))
    (hf : ∀ c ∈ calls, c.2.2 = false) :
    (∀ t ∈ runBroadcasts m calls, m.lastBroadcastTime + BROADCAST_INTERVAL_MS ≤ t) ∧
    List.Pairwise (fun t1 t2 => t1 + BROADCAST_INTERVAL_MS ≤ t2) (runBroadcasts m calls) := by
  induction calls generalizing m with
  | nil => exact ⟨by intro t ht; simp [runBroadcasts] at ht, by simp [runBroadcasts]⟩
  | cons c rest ih =>
    have hc := hf c (List.mem_cons_self _ _)
    have hrest : ∀ x ∈ rest, x.2.2 = false := fun x hx => hf x (List.mem_cons_of_mem _ hx)
    unfold runBroadcasts
    rcases broadcastPosition_send_cases m c.1 c.2.1 with hcase | ⟨hcase, hthr⟩
    · rw [hc, hcase]
      simp only [if_neg (by simp : ¬ ((false : Bool) = true))]
      exact ih m hrest
    · rw [hc, hcase]
      simp only [if_pos rfl]
      have ihm := ih { m with lastBroadcastTime := c.1, lastPosition := c.2.1 } hrest
      constructor
      · intro t ht
        rcases List.mem_cons.mp ht with rfl | ht
        · exact hthr
        · have := ihm.1 t ht
          dsimp at this
          have hI : (0 : ℚ) ≤ BROADCAST_INTERVAL_MS := by norm_num [BROADCAST_INTERVAL_MS]
          linarith
      · refine List.Pairwise.cons ?_ ihm.2
        intro t ht
        exact ihm.1 t ht

/-- In a list whose consecutive gaps are all at least `I`, at most one element
falls in any half-open window `[T, T + I)`. -/
lemma pairwise_gap_window (l : List ℚ) (s : ℚ)
    (hp : List.Pairwise (fun t1 t2 => t1 + s ≤ t2) l) (T : ℚ) :
    (l.countP (fun t => decide (T ≤ t ∧ t < T + s))) ≤ 1 := by
  induction l with
  | nil => simp
  | cons a l ih =>
    rcases List.pairwise_cons.mp hp with ⟨ha, hl⟩
    by_cases hwin : T ≤ a ∧ a < T + s
    · have hz : l.countP (fun t => decide (T ≤ t ∧ t < T + s)) = 0 := by
        rw [List.countP_eq_zero]
        intro t ht
        have hgap := ha t ht
        simp only [decide_eq_true_eq, not_and, not_lt]
        intro _
        linarith [hwin.1]
      rw [List.countP_cons, hz]
      simp [hwin]
    · rw [List.countP_cons]
      simp only [hwin, decide_eq_true_eq, if_neg, decide_eq_false_iff_not]
      have := ih hl
      simp only [decide_eq_true_eq] at this ⊢
      simpa [hwin] using this

/-- C4: (i) over any sequence of unforced `broadcastPosition` calls, at most
one message is sent inside any `BROADCAST_INTERVAL` window, however many
calls occur; (ii) an unforced call whose position differs from the last sent
sample by at most 0.01 units on every axis sends nothing and leaves the
manager state untouched; (iii) a forced call on an open channel always sends,
bypassing both the throttle and the movement gate. -/
theorem broadcastPosition_gate (m : MPState) (calls : List (ℚ × Vec3 × Bool))
    (now T : ℚ) (pos : Vec3)
    (hforce : ∀ c ∈ calls, c.2.2 = false) :
    ((runBroadcasts m calls).countP
        (fun t => decide (T ≤ t ∧ t < T + BROADCAST_INTERVAL_MS)) ≤ 1) ∧
    (|pos.x - m.lastPosition.x| ≤ 1/100 → |pos.y - m.lastPosition.y| ≤ 1/100 →
      |pos.z - m.lastPosition.z| ≤ 1/100 →
      broadcastPosition m now pos false = (m, false)) ∧
    (m.channelOpen = true → (broadcastPosition m now pos true).2 = true) := by
  refine ⟨?_, ?_, ?_⟩
  · exact pairwise_gap_window _ _ (runBroadcasts_gap m calls hforce).2 T
  · intro hx hy hz
    unfold broadcastPosition
    by_cases h1 : m.channelOpen = false
    · rw [if_pos h1]
    · rw [if_neg h1]
      by_cases h2 : now - m.lastBroadcastTime < BROADCAST_INTERVAL_MS
      · rw [if_pos ⟨rfl, h2⟩]
      · rw [if_neg (fun h => h2 h.2),
          if_pos ⟨by push_neg; exact ⟨hx, hy, hz⟩, rfl⟩]
  · intro hop
    unfold broadcastPosition
    rw [if_neg (by rw [hop]; simp),
      if_neg (fun h => by simpa using h.1),
      if_neg (fun h => by simpa using h.2)]

/-- Witness for C4 at concrete inputs: two unforced calls 10 ms apart from a
moved position send at most one message in the window starting at time 1000;
an unmoved unforced call is a no-op; a forced call sends. -/
theorem broadcastPosition_gate_witness :
    ((runBroadcasts ⟨true, 0, vzero⟩
        [(1000, ⟨1, 0, 0⟩, false), (1010, ⟨2, 0, 0⟩, false)]).countP
        (fun t => decide (1000 ≤ t ∧ t < 1000 + BROADCAST_INTERVAL_MS)) ≤ 1) ∧
    (broadcastPosition ⟨true, 0, vzero⟩ 1000 ⟨1/200, 0, 0⟩ false = (⟨true, 0, vzero⟩, false)) ∧
    ((broadcastPosition ⟨true, 0, vzero⟩ 1000 vzero true).2 = true) := by
  have h := broadcastPosition_gate ⟨true, 0, vzero⟩
    [(1000, ⟨1, 0, 0⟩, false), (1010, ⟨2, 0, 0⟩, false)] 1000 1000 ⟨1/200, 0, 0⟩
    (by intro c hc; rcases List.mem_cons.mp hc with rfl | hc
        · rfl
        · rcases List.mem_cons.mp hc with rfl | hc
          · rfl
          · simp at hc)
  refine ⟨h.1, h.2.1 (by norm_num [vzero, abs_le]) (by norm_num [vzero, abs_le])
    (by norm_num [vzero, abs_le]), ?_⟩
  exact (broadcastPosition_gate ⟨true, 0, vzero⟩ [] 1000 1000 vzero (by simp)).2.2 rfl

/-! ### Knockback message handling (C9) -/

structure KnockbackMsg where
  targetId : String
  impulse : Vec3
deriving DecidableEq, Repr

/-- `PlayerController.applyKnockback` (part_001 lines 187-189): forwards the
received impulse to `PlayerPhysics.applyImpulse`. -/
def applyKnockback (impulse : Vec3) (p : PlayerState) : PlayerState :=
  applyImpulse impulse p

/-- Modelled from the spec: the `knockback` channel listener is not among the
provided sources — only its sender call site (`multiplayer.sendKnockback`,
Game.jsx line 192) and the receiving handler (`multiplayer.onKnockback`,
Game.jsx lines 360-365, which calls `applyKnockback`) are.  Per the message
table, a knockback carries a target id and an impulse and is "applied only if
the receiving client is the named target". -/
def handleKnockbackMessage (selfId : String) (msg : KnockbackMsg) (p : PlayerState) :
    PlayerState :=
  if msg.targetId = selfId then applyKnockback msg.impulse p else p

/-- C9: a received knockback message adds its impulse to the local body's
velocity (and lifts it off the floor, collider untouched) exactly when the
receiving client is the named target; any other client's local body state is
completely unchanged by the message. -/
theorem knockback_applied_iff_target (selfId : String) (msg : KnockbackMsg)
    (p : PlayerState) :
    (msg.targetId = selfId →
      handleKnockbackMessage selfId msg p
        = { p with velocity := vadd p.velocity msg.impulse, onFloor := false }) ∧
    (msg.targetId ≠ selfId → handleKnockbackMessage selfId msg p = p) := by
  constructor
  · intro h
    unfold handleKnockbackMessage applyKnockback applyImpulse
    rw [if_pos h]
  · intro h
    unfold handleKnockbackMessage
    rw [if_neg h]

/-- Witness for C9: the named target receives the impulse; a bystander's body
is unchanged. -/
theorem knockback_applied_iff_target_witness :
    (handleKnockbackMessage "alice" ⟨"alice", ⟨3, 4, 5⟩⟩ resetState
      = { resetState with velocity := vadd resetState.velocity ⟨3, 4, 5⟩, onFloor := false }) ∧
    (handleKnockbackMessage "bob" ⟨"alice", ⟨3, 4, 5⟩⟩ resetState = resetState) := by
  exact ⟨(knockback_applied_iff_target "alice" ⟨"alice", ⟨3, 4, 5⟩⟩ resetState).1 rfl,
    (knockback_applied_iff_target "bob" ⟨"alice", ⟨3, 4, 5⟩⟩ resetState).2 (by decide)⟩

/-! ### C5: knockback impulse formula -/

/-- C5: (i) for every contact normal and projectile velocity, the emitted
knockback impulse is the negated contact normal with +0.5 added on the
vertical axis, renormalized and scaled by `15 + 0.5 * min(|velocity|, 50)`;
(ii) in the concrete scenario where the projectile reaches the remote capsule
with contact normal `(1,0,0)` and its velocity at emission time is `(10,0,0)`
(entry velocity `(-20,0,0)`, reflected by the 1.5-restitution bounce), the
emitted event carries the impulse `normalize((-1, 0.5, 0))` scaled by a
magnitude of exactly `15 + 0.5 * 10 = 20`, and the projectile's velocity at
emission is indeed `(10,0,0)`. -/
theorem knockback_impulse_formula (sq : ℚ → ℚ)
    (hs1 : sq (1/16) = 1/4) (hs2 : sq 100 = 10) :
    (∀ normal vel : Vec3,
      emitKnockback sq normal vel
        = vscale (15 + min (sq (lengthSq vel)) 50 * (1/2))
            (vnormalize sq ⟨-normal.x, -normal.y + 1/2, -normal.z⟩)) ∧
    ((resolveRemoteCollisions sq true
        { center := ⟨1/4, 1/2, 0⟩, radius := 1/5, velocity := ⟨-20, 0, 0⟩, owner := none
          spawnTime := 0, lifetime := 40000, hitSet := [] }
        [{ id := "target", start := some ⟨0, 0, 0⟩, endP := some ⟨0, 1, 0⟩, radius := 7/20 }]).2
      = [⟨"target", vscale 20 (vnormalize sq ⟨-1, 1/2, 0⟩)⟩]) ∧
    ((resolveRemoteCollisions sq true
        { center := ⟨1/4, 1/2, 0⟩, radius := 1/5, velocity := ⟨-20, 0, 0⟩, owner := none
          spawnTime := 0, lifetime := 40000, hitSet := [] }
        [{ id := "target", start := some ⟨0, 0, 0⟩, endP := some ⟨0, 1, 0⟩, radius := 7/20 }]).1.velocity
      = ⟨10, 0, 0⟩) := by
  refine ⟨fun normal vel => rfl, ?_, ?_⟩
  · unfold resolveRemoteCollisions resolveRemoteCollisions remoteCollisionStep emitKnockback
    norm_num [closestPointOnSegment, clamp01, distSqV, lengthSq, dot, vsub, vadd, vscale,
      addScaled, vneg, vnormalize, hs1, hs2]
  · unfold resolveRemoteCollisions resolveRemoteCollisions remoteCollisionStep
    norm_num [closestPointOnSegment, clamp01, distSqV, lengthSq, dot, vsub, vadd, vscale,
      addScaled, vneg, vnormalize, hs1, hs2]

/-- Witness for C5: running the scenario with a concrete square-root function
emits exactly the knockback event with scale factor 20. -/
theorem knockback_impulse_formula_witness :
    (resolveRemoteCollisions sqWitness true
        { center := ⟨1/4, 1/2, 0⟩, radius := 1/5, velocity := ⟨-20, 0, 0⟩, owner := none
          spawnTime := 0, lifetime := 40000, hitSet := [] }
        [{ id := "target", start := some ⟨0, 0, 0⟩, endP := some ⟨0, 1, 0⟩, radius := 7/20 }]).2
      = [⟨"target", vscale 20 (vnormalize sqWitness ⟨-1, 1/2, 0⟩)⟩] :=
  (knockback_impulse_formula sqWitness (by norm_num [sqWitness])
    (by norm_num [sqWitness])).2.1

/-! ### JavaScript number semantics: exact rationals extended with NaN / ±∞.
Rounding is idealised away; the special-value algebra follows IEEE-754 /
ECMAScript. -/

inductive JSNum where
  | num (q : ℚ)
  | inf
  | ninf
  | nan
deriving DecidableEq, Repr

open JSNum in
/-- global `isNaN` on a number. -/
def isNaNJS : JSNum → Bool
  | nan => true
  | _ => false

open JSNum in
/-- `isFinite` on a number. -/
def isFiniteJS : JSNum → Bool
  | num _ => true
  | _ => false

open JSNum in
/-- JavaScript truthiness of a number: `0` and `NaN` are falsy. -/
def truthyJS : JSNum → Bool
  | num q => q ≠ 0
  | nan => false
  | _ => true

open JSNum in
def jneg : JSNum → JSNum
  | num q => num (-q)
  | inf => ninf
  | ninf => inf
  | nan => nan

open JSNum in
def jadd : JSNum → JSNum → JSNum
  | num a, num b => num (a + b)
  | num _, inf => inf
  | num _, ninf => ninf
  | inf, num _ => inf
  | ninf, num _ => ninf
  | inf, inf => inf
  | ninf, ninf => ninf
  | inf, ninf => nan
  | ninf, inf => nan
  | nan, _ => nan
  | _, nan => nan

def jsub (a b : JSNum) : JSNum := jadd a (jneg b)

open JSNum in
def jmul : JSNum → JSNum → JSNum
  | num a, num b => num (a * b)
  | num a, inf => if 0 < a then inf else if a < 0 then ninf else nan
  | num a, ninf => if 0 < a then ninf else if a < 0 then inf else nan
  | inf, num b => if 0 < b then inf else if b < 0 then ninf else nan
  | ninf, num b => if 0 < b then ninf else if b < 0 then inf else nan
  | inf, inf => inf
  | inf, ninf => ninf
  | ninf, inf => ninf
  | ninf, ninf => inf
  | nan, _ => nan
  | _, nan => nan

open JSNum in
def jdiv : JSNum → JSNum → JSNum
  | num a, num b =>
    if b = 0 then (if a = 0 then nan else if 0 < a then inf else ninf)
    else num (a / b)
  | num _, inf => num 0
  | num _, ninf => num 0
  | inf, num b => if 0 ≤ b then inf else ninf
  | ninf, num b => if 0 ≤ b then ninf else inf
  | inf, inf => nan
  | inf, ninf => nan
  | ninf, inf => nan
  | ninf, ninf => nan
  | nan, _ => nan
  | _, nan => nan

open JSNum in
/-- `<` on numbers: any comparison with NaN is false. -/
def jlt : JSNum → JSNum → Bool
  | num a, num b => a < b
  | num _, inf => true
  | num _, ninf => false
  | inf, num _ => false
  | ninf, num _ => true
  | inf, inf => false
  | ninf, ninf => false
  | ninf, inf => true
  | inf, ninf => false
  | nan, _ => false
  | _, nan => false

open JSNum in
/-- `<=` on numbers: any comparison with NaN is false. -/
def jle : JSNum → JSNum → Bool
  | num a, num b => a ≤ b
  | num _, inf => true
  | num _, ninf => false
  | inf, num _ => false
  | ninf, num _ => true
  | inf, inf => true
  | ninf, ninf => true
  | ninf, inf => true
  | inf, ninf => false
  | nan, _ => false
  | _, nan => false

open JSNum in
/-- `Math.min`: NaN-propagating. -/
def jmin : JSNum → JSNum → JSNum
  | num a, num b => num (min a b)
  | num a, inf => num a
  | num _, ninf => ninf
  | inf, num b => num b
  | ninf, num _ => ninf
  | inf, inf => inf
  | inf, ninf => ninf
  | ninf, inf => ninf
  | ninf, ninf => ninf
  | nan, _ => nan
  | _, nan => nan

open JSNum in
/-- `Math.max`: NaN-propagating. -/
def jmax : JSNum → JSNum → JSNum
  | num a, num b => num (max a b)
  | num _, inf => inf
  | num a, ninf => num a
  | inf, num _ => inf
  | ninf, num b => num b
  | inf, inf => inf
  | inf, ninf => inf
  | ninf, inf => inf
  | ninf, ninf => ninf
  | nan, _ => nan
  | _, nan => nan

open JSNum in
/-- `Math.sqrt`, with the nonnegative-rational part delegated to `psq`. -/
def jsqrt (psq : ℚ → ℚ) : JSNum → JSNum
  | num q => if q < 0 then nan else num (psq q)
  | inf => inf
  | ninf => nan
  | nan => nan

/-- `x || y` on numbers. -/
def jsOr (a b : JSNum) : JSNum := if truthyJS a then a else b

/-- `Math.max(0.0, Math.min(1.0, t))` over JS numbers. -/
def clampJS (t : JSNum) : JSNum := jmax (JSNum.num 0) (jmin (JSNum.num 1) t)

structure Vec3J where
  x : JSNum
  y : JSNum
  z : JSNum
deriving DecidableEq, Repr

def jvadd (u v : Vec3J) : Vec3J := ⟨jadd u.x v.x, jadd u.y v.y, jadd u.z v.z⟩

def jvsub (u v : Vec3J) : Vec3J := ⟨jsub u.x v.x, jsub u.y v.y, jsub u.z v.z⟩

def jvscale (s : JSNum) (v : Vec3J) : Vec3J := ⟨jmul v.x s, jmul v.y s, jmul v.z s⟩

def jvdot (u v : Vec3J) : JSNum :=
  jadd (jadd (jmul u.x v.x) (jmul u.y v.y)) (jmul u.z v.z)

def jvlengthSq (v : Vec3J) : JSNum := jvdot v v

def jvdistSq (u v : Vec3J) : JSNum := jvlengthSq (jvsub u v)

def jvaddScaled (u v : Vec3J) (s : JSNum) : Vec3J := jvadd u (jvscale s v)

/-- `THREE.Vector3.normalize` over JS numbers: multiply by `1 / (length || 1)`. -/
def jvnormalize (psq : ℚ → ℚ) (v : Vec3J) : Vec3J :=
  let l := jsqrt psq (jvlengthSq v)
  let d := if truthyJS l then l else JSNum.num 1
  let invd := jdiv (JSNum.num 1) d
  ⟨jmul v.x invd, jmul v.y invd, jmul v.z invd⟩

/-! ### resolvePlayerCollisions over JS numbers (physics.js lines 106-170) -/

structure SegResultJ where
  point1 : Vec3J
  point2 : Vec3J
  distSq : JSNum
deriving DecidableEq, Repr

/-- `PlayerPhysics._closestPointSegmentToSegment` (physics.js lines 240-291)
over JS numbers, as invoked from `resolvePlayerCollisions`. -/
def closestPointSegmentToSegmentJS (p1 q1 p2 q2 : Vec3J) : SegResultJ :=
  let d1 := jvsub q1 p1
  let d2 := jvsub q2 p2
  let r := jvsub p1 p2
  let a := jvdot d1 d1
  let e := jvdot d2 d2
  let f := jvdot d2 r
  if jle a (JSNum.num (1/1000000)) = true ∧ jle e (JSNum.num (1/1000000)) = true then
    ⟨p1, p2, jvdistSq p1 p2⟩
  else if jle a (JSNum.num (1/1000000)) = true then
    let t := clampJS (jdiv f e)
    let c2 := jvaddScaled p2 d2 t
    ⟨p1, c2, jvdistSq p1 c2⟩
  else if jle e (JSNum.num (1/1000000)) = true then
    let s := clampJS (jdiv (jneg (jvdot d1 r)) a)
    let c1 := jvaddScaled p1 d1 s
    ⟨c1, p2, jvdistSq c1 p2⟩
  else
    let c := jvdot d1 r
    let b := jvdot d1 d2
    let denom := jsub (jmul a e) (jmul b b)
    let s0 := if denom ≠ JSNum.num 0
      then clampJS (jdiv (jsub (jmul b f) (jmul c e)) denom) else JSNum.num 0
    let t0 := jdiv (jadd (jmul b s0) f) e
    let st :=
      if jlt t0 (JSNum.num 0) = true then
        (clampJS (jdiv (jneg c) a), (JSNum.num 0 : JSNum))
      else if jlt (JSNum.num 1) t0 = true then
        (clampJS (jdiv (jsub b c) a), (JSNum.num 1 : JSNum))
      else (s0, t0)
    let c1 := jvaddScaled p1 d1 st.1
    let c2 := jvaddScaled p2 d2 st.2
    ⟨c1, c2, jvdistSq c1 c2⟩

structure CapsuleJ where
  start : Vec3J
  endP : Vec3J
  radius : JSNum
deriving DecidableEq, Repr

structure PlayerStateJ where
  collider : CapsuleJ
  velocity : Vec3J
  onFloor : Bool
deriving DecidableEq, Repr

/-- `PlayerPhysics.reset` over JS numbers (physics.js lines 23-30). -/
def resetStateJ : PlayerStateJ :=
  { collider := ⟨⟨JSNum.num 0, JSNum.num 5, JSNum.num 0⟩,
      ⟨JSNum.num 0, JSNum.num (113/20), JSNum.num 0⟩, JSNum.num (7/20)⟩
    velocity := ⟨JSNum.num 0, JSNum.num 0, JSNum.num 0⟩
    onFloor := false }

/-- A remote collider as consumed by `resolvePlayerCollisions`; optional
fields model absent JS properties. -/
structure RemoteColliderJ where
  id : String
  start : Option Vec3J
  endP : Option Vec3J
  radius : Option JSNum
  position : Vec3J
  height : Option JSNum
deriving DecidableEq, Repr

/-- The remote segment used by one loop iteration (physics.js lines 119-133):
explicit segment when `remote.start && remote.end`, otherwise the
position/height approximation.  Returns `(p2Start, p2End, r2)`. -/
def remoteSegmentJ (remote : RemoteColliderJ) : Vec3J × Vec3J × JSNum :=
  match remote.start, remote.endP with
  | some rs, some re => (rs, re, remote.radius.getD JSNum.nan)
  | _, _ =>
    let r2 := jsOr (remote.radius.getD JSNum.nan) (JSNum.num (7/20))
    let height := jsOr (remote.height.getD JSNum.nan) (JSNum.num (9/5))
    let p2Start : Vec3J :=
      ⟨remote.position.x, jadd remote.position.y r2, remote.position.z⟩
    let p2End : Vec3J :=
      ⟨remote.position.x, jadd remote.position.y (jsub height r2), remote.position.z⟩
    (p2Start, p2End, r2)

/-- One iteration of the `resolvePlayerCollisions` loop (physics.js lines
118-168). -/
def resolvePlayerCollisionsStep (psq : ℚ → ℚ) (st : PlayerStateJ)
    (remote : RemoteColliderJ) : PlayerStateJ :=
  let seg := remoteSegmentJ remote
  let p2Start := seg.1
  let r2 := seg.2.2
  if isNaNJS p2Start.x = true ∨ isNaNJS p2Start.y = true ∨ isNaNJS p2Start.z = true then st
  else
    let res := closestPointSegmentToSegmentJS st.collider.start st.collider.endP p2Start seg.2.1
    if isNaNJS res.distSq = true then st
    else
      let minSeparation := jadd st.collider.radius r2
      if jlt res.distSq (jmul minSeparation minSeparation) = true ∧
          jlt (JSNum.num (1/10000000000)) res.distSq = true then
        let dist := jsqrt psq res.distSq
        let overlap := jsub minSeparation dist
        let normal := jvnormalize psq (jvsub res.point1 res.point2)
        if isNaNJS normal.x = true ∨ isNaNJS normal.y = true ∨ isNaNJS normal.z = true then st
        else
          let moved : PlayerStateJ :=
            { st with collider :=
              { st.collider with
                start := jvadd st.collider.start (jvscale overlap normal)
                endP := jvadd st.collider.endP (jvscale overlap normal) } }
          let vDotN := jvdot moved.velocity normal
          if jlt vDotN (JSNum.num 0) = true then
            { moved with velocity := jvaddScaled moved.velocity normal (jneg vDotN) }
          else moved
      else st

/-- `PlayerPhysics.resolvePlayerCollisions` (physics.js lines 106-170): the
entry validation checks the local collider start for NaN (resetting and
returning on failure), then folds the per-remote loop body. -/
def resolvePlayerCollisions (psq : ℚ → ℚ) (st : PlayerStateJ)
    (remotes : List RemoteColliderJ) : PlayerStateJ :=
  if isNaNJS st.collider.start.x = true ∨ isNaNJS st.collider.start.y = true ∨
      isNaNJS st.collider.start.z = true then resetStateJ
  else remotes.foldl (resolvePlayerCollisionsStep psq) st

/-! ### C7: non-finite validation -/

/-- A local collider whose start has an infinite x component and a nonzero
velocity: not NaN, so the entry check passes. -/
def infStartState : PlayerStateJ :=
  { collider := ⟨⟨JSNum.inf, JSNum.num 5, JSNum.num 0⟩,
      ⟨JSNum.num 0, JSNum.num (113/20), JSNum.num 0⟩, JSNum.num (7/20)⟩
    velocity := ⟨JSNum.num 1, JSNum.num 0, JSNum.num 0⟩
    onFloor := false }

/-- A local collider whose start is finite but whose end has a NaN component:
the entry check inspects only the start, so this also passes. -/
def nanEndState : PlayerStateJ :=
  { collider := ⟨⟨JSNum.num 0, JSNum.num 5, JSNum.num 0⟩,
      ⟨JSNum.nan, JSNum.num (113/20), JSNum.num 0⟩, JSNum.num (7/20)⟩
    velocity := ⟨JSNum.num 1, JSNum.num 0, JSNum.num 0⟩
    onFloor := false }

/-- Counterexample to C7 as stated: a local collider state with an
*infinite* (hence non-finite, but not NaN) start coordinate does **not**
trigger a reset — `resolvePlayerCollisions` returns the corrupt state
unchanged (here with an empty remote list), and that state differs from the
spawn state.  Likewise a NaN confined to the collider *end* is not caught:
the entry validation reads only the start. -/
theorem resolvePlayerCollisions_inf_no_reset :
    (resolvePlayerCollisions (fun q => q) infStartState [] = infStartState ∧
      infStartState ≠ resetStateJ) ∧
    (resolvePlayerCollisions (fun q => q) nanEndState [] = nanEndState ∧
      nanEndState ≠ resetStateJ) := by
  refine ⟨⟨?_, ?_⟩, ?_, ?_⟩
  · unfold resolvePlayerCollisions
    rw [if_neg (by simp [infStartState, isNaNJS])]
    rfl
  · intro h
    have hx := congrArg (fun s => s.collider.start.x) h
    simp [infStartState, resetStateJ] at hx
  · unfold resolvePlayerCollisions
    rw [if_neg (by simp [nanEndState, isNaNJS])]
    rfl
  · intro h
    have hx := congrArg (fun s => s.collider.endP.x) h
    simp [nanEndState, resetStateJ] at hx

/-- C7 (amended): the entry validation is a NaN check on the local collider
start: (i) a NaN component there causes an immediate full reset to the spawn
state, with no remote entry processed (the result is `resetStateJ` for every
remote list); (ii) a remote entry whose derived segment start contains NaN is
skipped — the loop body leaves the local state unchanged; (iii) consequently,
with a NaN-free local start, a list containing such a corrupt remote yields
exactly the result of the list with that entry removed. -/
theorem resolvePlayerCollisions_nan_validation (psq : ℚ → ℚ) (st : PlayerStateJ)
    (remotes l1 l2 : List RemoteColliderJ) (bad : RemoteColliderJ)
    (hbad : isNaNJS (remoteSegmentJ bad).1.x = true ∨
      isNaNJS (remoteSegmentJ bad).1.y = true ∨ isNaNJS (remoteSegmentJ bad).1.z = true) :
    ((isNaNJS st.collider.start.x = true ∨ isNaNJS st.collider.start.y = true ∨
        isNaNJS st.collider.start.z = true) →
      resolvePlayerCollisions psq st remotes = resetStateJ) ∧
    (∀ s : PlayerStateJ, resolvePlayerCollisionsStep psq s bad = s) ∧
    (¬ (isNaNJS st.collider.start.x = true ∨ isNaNJS st.collider.start.y = true ∨
        isNaNJS st.collider.start.z = true) →
      resolvePlayerCollisions psq st (l1 ++ bad :: l2)
        = resolvePlayerCollisions psq st (l1 ++ l2)) := by
  have hskip : ∀ s : PlayerStateJ, resolvePlayerCollisionsStep psq s bad = s := by
    intro s
    unfold resolvePlayerCollisionsStep
    rw [if_pos hbad]
  refine ⟨?_, hskip, ?_⟩
  · intro h
    unfold resolvePlayerCollisions
    rw [if_pos h]
  · intro h
    unfold resolvePlayerCollisions
    rw [if_neg h, if_neg h, List.foldl_append, List.foldl_append, List.foldl_cons,
      hskip]

/-- Witness for C7 (amended) at concrete inputs: a NaN local start resets; a
NaN remote start is skipped and removing it changes nothing. -/
theorem resolvePlayerCollisions_nan_validation_witness :
    (resolvePlayerCollisions (fun q => q)
        { collider := ⟨⟨JSNum.nan, JSNum.num 5, JSNum.num 0⟩,
            ⟨JSNum.num 0, JSNum.num (113/20), JSNum.num 0⟩, JSNum.num (7/20)⟩
          velocity := ⟨JSNum.num 1, JSNum.num 0, JSNum.num 0⟩
          onFloor := false }
        [] = resetStateJ) ∧
    (resolvePlayerCollisions (fun q => q) resetStateJ
        [⟨"r", some ⟨JSNum.nan, JSNum.num 0, JSNum.num 0⟩,
          some ⟨JSNum.nan, JSNum.num 1, JSNum.num 0⟩, some (JSNum.num (7/20)),
          ⟨JSNum.num 0, JSNum.num 0, JSNum.num 0⟩, none⟩]
      = resolvePlayerCollisions (fun q => q) resetStateJ []) := by
  constructor
  · exact (resolvePlayerCollisions_nan_validation (fun q => q) _ [] [] []
      ⟨"r", some ⟨JSNum.nan, JSNum.num 0, JSNum.num 0⟩,
        some ⟨JSNum.nan, JSNum.num 1, JSNum.num 0⟩, some (JSNum.num (7/20)),
        ⟨JSNum.num 0, JSNum.num 0, JSNum.num 0⟩, none⟩
      (by left; rfl)).1 (by left; rfl)
  · exact (resolvePlayerCollisions_nan_validation (fun q => q) resetStateJ [] [] []
      ⟨"r", some ⟨JSNum.nan, JSNum.num 0, JSNum.num 0⟩,
        some ⟨JSNum.nan, JSNum.num 1, JSNum.num 0⟩, some (JSNum.num (7/20)),
        ⟨JSNum.num 0, JSNum.num 0, JSNum.num 0⟩, none⟩
      (by left; rfl)).2.2 (by simp [resetStateJ, isNaNJS])

/-! ### C10: RemotePlayersManager.getRemoteColliders (remotePlayers.js 392-426) -/

structure ModelDef where
  name : String
  yOffset : ℚ
  radius : Option ℚ
deriving DecidableEq, Repr

/-- `MODELS` (constants.js lines 18-22). -/
def MODELS : List ModelDef :=
  [⟨"Runner", 0, some (3/10)⟩,
   ⟨"Purple Girl", 9/10, some (3/10)⟩,
   ⟨"Sunflower", 9/10, some (9/20)⟩]

/-- `x || d` for an optional rational JS number (absent, and 0, are falsy). -/
def jsOrQ (r : Option ℚ) (d : ℚ) : ℚ :=
  match r with
  | none => d
  | some x => if x = 0 then d else x

/-- The radius `loadPlayerModel` stores on a player (remotePlayers.js line
139): `modelDef ? (modelDef.radius || 0.35) : 0.35`. -/
def loadedRadius (modelDef : Option ModelDef) : ℚ :=
  match modelDef with
  | some m => jsOrQ m.radius (7/20)
  | none => 7/20

/-- A remote player's state as read by `getRemoteColliders`: mesh position
and the (optional) radius stored by `loadPlayerModel`. -/
structure RemotePlayerJ where
  username : String
  position : Vec3J
  radius : Option ℚ
deriving DecidableEq, Repr

structure OutCollider where
  id : String
  start : Vec3J
  endP : Vec3J
  radius : ℚ
  position : Vec3J
  height : ℚ
deriving DecidableEq, Repr

/-- The validation at remotePlayers.js lines 396-403: any NaN or non-finite
mesh-position component disqualifies the player. -/
def invalidPos (p : Vec3J) : Bool :=
  isNaNJS p.x || isNaNJS p.y || isNaNJS p.z ||
  !(isFiniteJS p.x) || !(isFiniteJS p.y) || !(isFiniteJS p.z)

/-- Collider construction (remotePlayers.js lines 408-423). -/
def mkRemoteCollider (player : RemotePlayerJ) : OutCollider :=
  let radius := jsOrQ player.radius (7/20)
  let height : ℚ := 9/5
  let start : Vec3J :=
    ⟨player.position.x, jadd player.position.y (JSNum.num radius), player.position.z⟩
  let endP : Vec3J :=
    ⟨player.position.x,
      jsub (jadd player.position.y (JSNum.num height)) (JSNum.num radius),
      player.position.z⟩
  ⟨player.username, start, endP, radius, player.position, height⟩

/-- `RemotePlayersManager.getRemoteColliders` (remotePlayers.js 392-426):
skip players with an invalid mesh position, emit a collider for the rest. -/
def getRemoteColliders (players : List RemotePlayerJ) : List OutCollider :=
  (players.filter (fun p => !(invalidPos p.position))).map mkRemoteCollider

lemma isFiniteJS_iff (a : JSNum) : isFiniteJS a = true ↔ ∃ q, a = JSNum.num q := by
  cases a <;> simp [isFiniteJS]

/-- C10: under the only radius provenance the program has (absent, or stored
by `loadPlayerModel` from a `MODELS` entry or its 0.35 fallback), every
collider returned by `getRemoteColliders` has finite start and end
coordinates and a strictly positive radius; every returned collider comes
from a player whose position passed the NaN/finite validation; and a player
with no stored radius gets the 0.35 default. -/
theorem getRemoteColliders_valid (players : List RemotePlayerJ)
    (hrad : ∀ p ∈ players, p.radius = none ∨ p.radius = some (loadedRadius none) ∨
      ∃ m ∈ MODELS, p.radius = some (loadedRadius (some m))) :
    (∀ c ∈ getRemoteColliders players,
      isFiniteJS c.start.x = true ∧ isFiniteJS c.start.y = true ∧
      isFiniteJS c.start.z = true ∧ isFiniteJS c.endP.x = true ∧
      isFiniteJS c.endP.y = true ∧ isFiniteJS c.endP.z = true ∧ 0 < c.radius) ∧
    (∀ c ∈ getRemoteColliders players,
      ∃ p ∈ players, invalidPos p.position = false ∧ c = mkRemoteCollider p) ∧
    (∀ p : RemotePlayerJ, p.radius = none → (mkRemoteCollider p).radius = 7/20) := by
  have hsrc : ∀ c ∈ getRemoteColliders players,
      ∃ p ∈ players, invalidPos p.position = false ∧ c = mkRemoteCollider p := by
    intro c hc
    unfold getRemoteColliders at hc
    rcases List.mem_map.mp hc with ⟨p, hp, rfl⟩
    rcases List.mem_filter.mp hp with ⟨hpmem, hpval⟩
    exact ⟨p, hpmem, by simpa using hpval, rfl⟩
  refine ⟨?_, hsrc, fun p hp => by simp [mkRemoteCollider, jsOrQ, hp]⟩
  intro c hc
  rcases hsrc c hc with ⟨p, hpmem, hpval, rfl⟩
  have hfin : isFiniteJS p.position.x = true ∧ isFiniteJS p.position.y = true ∧
      isFiniteJS p.position.z = true := by
    revert hpval
    unfold invalidPos
    cases p.position.x <;> cases p.position.y <;> cases p.position.z <;>
      simp [isFiniteJS, isNaNJS]
  rcases (isFiniteJS_iff _).mp hfin.1 with ⟨qx, hqx⟩
  rcases (isFiniteJS_iff _).mp hfin.2.1 with ⟨qy, hqy⟩
  rcases (isFiniteJS_iff _).mp hfin.2.2 with ⟨qz, hqz⟩
  have hradpos : 0 < jsOrQ p.radius (7/20) := by
    rcases hrad p hpmem with h | h | ⟨m, hm, h⟩
    · rw [h]
      norm_num [jsOrQ]
    · rw [h]
      norm_num [jsOrQ, loadedRadius]
    · rw [h]
      unfold MODELS at hm
      rcases List.mem_cons.mp hm with rfl | hm
      · norm_num [jsOrQ, loadedRadius]
      rcases List.mem_cons.mp hm with rfl | hm
      · norm_num [jsOrQ, loadedRadius]
      rcases List.mem_cons.mp hm with rfl | hm
      · norm_num [jsOrQ, loadedRadius]
      · simp at hm
  refine ⟨?_, ?_, ?_, ?_, ?_, ?_, hradpos⟩ <;>
    simp [mkRemoteCollider, hqx, hqy, hqz, jadd, jsub, jneg, isFiniteJS]

/-- Witness for C10 at concrete inputs: one player with no stored radius and
one with the Sunflower radius produce finite, positive-radius colliders; a
NaN-position player contributes nothing. -/
theorem getRemoteColliders_valid_witness :
    (∀ c ∈ getRemoteColliders
      [⟨"a", ⟨JSNum.num 1, JSNum.num 2, JSNum.num 3⟩, none⟩,
       ⟨"b", ⟨JSNum.nan, JSNum.num 0, JSNum.num 0⟩, none⟩,
       ⟨"c", ⟨JSNum.num 0, JSNum.num 0, JSNum.num 0⟩,
         some (loadedRadius (some ⟨"Sunflower", 9/10, some (9/20)⟩))⟩],
      0 < c.radius) ∧
    (∀ c ∈ getRemoteColliders
      [⟨"a", ⟨JSNum.num 1, JSNum.num 2, JSNum.num 3⟩, none⟩,
       ⟨"b", ⟨JSNum.nan, JSNum.num 0, JSNum.num 0⟩, none⟩,
       ⟨"c", ⟨JSNum.num 0, JSNum.num 0, JSNum.num 0⟩,
         some (loadedRadius (some ⟨"Sunflower", 9/10, some (9/20)⟩))⟩],
      c.id ≠ "b") := by
  have h := getRemoteColliders_valid
    [⟨"a", ⟨JSNum.num 1, JSNum.num 2, JSNum.num 3⟩, none⟩,
     ⟨"b", ⟨JSNum.nan, JSNum.num 0, JSNum.num 0⟩, none⟩,
     ⟨"c", ⟨JSNum.num 0, JSNum.num 0, JSNum.num 0⟩,
       some (loadedRadius (some ⟨"Sunflower", 9/10, some (9/20)⟩))⟩]
    (by
      intro p hp
      rcases List.mem_cons.mp hp with rfl | hp
      · exact Or.inl rfl
      rcases List.mem_cons.mp hp with rfl | hp
      · exact Or.inl rfl
      rcases List.mem_cons.mp hp with rfl | hp
      · exact Or.inr (Or.inr ⟨⟨"Sunflower", 9/10, some (9/20)⟩, (by simp [ MODELS]), rfl⟩)
      · simp at hp)
  refine ⟨fun c hc => (h.1 c hc).2.2.2.2.2.2, fun c hc => ?_⟩
  rcases h.2.1 c hc with ⟨p, hp, hval, rfl⟩
  rcases List.mem_cons.mp hp with rfl | hp
  · simp [mkRemoteCollider]
  rcases List.mem_cons.mp hp with rfl | hp
  · simp [invalidPos, isNaNJS] at hval
  rcases List.mem_cons.mp hp with rfl | hp
  · simp [mkRemoteCollider]
  · simp at hp

/-! ### C8: `_closestPointSegmentToSegment` (physics.js lines 240-291) -/

structure SegResult where
  point1 : Vec3
  point2 : Vec3
  distSq : ℚ
deriving DecidableEq, Repr

/-- `PlayerPhysics._closestPointSegmentToSegment` over exact rationals. -/
def closestPointSegmentToSegment (p1 q1 p2 q2 : Vec3) : SegResult :=
  let d1 := vsub q1 p1
  let d2 := vsub q2 p2
  let r := vsub p1 p2
  let a := dot d1 d1
  let e := dot d2 d2
  let f := dot d2 r
  if a ≤ 1/1000000 ∧ e ≤ 1/1000000 then
    ⟨p1, p2, distSqV p1 p2⟩
  else if a ≤ 1/1000000 then
    let t := clamp01 (f / e)
    let c2 := addScaled p2 d2 t
    ⟨p1, c2, distSqV p1 c2⟩
  else if e ≤ 1/1000000 then
    let s := clamp01 (-(dot d1 r) / a)
    let c1 := addScaled p1 d1 s
    ⟨c1, p2, distSqV c1 p2⟩
  else
    let c := dot d1 r
    let b := dot d1 d2
    let denom := a * e - b * b
    let s0 := if denom ≠ 0 then clamp01 ((b * f - c * e) / denom) else 0
    let t0 := (b * s0 + f) / e
    let st :=
      if t0 < 0 then (clamp01 (-c / a), (0 : ℚ))
      else if t0 > 1 then (clamp01 ((b - c) / a), (1 : ℚ))
      else (s0, t0)
    let c1 := addScaled p1 d1 st.1
    let c2 := addScaled p2 d2 st.2
    ⟨c1, c2, distSqV c1 c2⟩

/-- The point at parameter `t` on the segment from `p` to `q`. -/
def segPoint (p q : Vec3) (t : ℚ) : Vec3 := addScaled p (vsub q p) t

/-- Squared distance between the parametrised points of the two segments: the
objective the closest-point routine minimises over `[0,1] × [0,1]`. -/
def gfun (p1 q1 p2 q2 : Vec3) (s t : ℚ) : ℚ :=
  distSqV (segPoint p1 q1 s) (segPoint p2 q2 t)

lemma distSqV_comm (u v : Vec3) : distSqV u v = distSqV v u := by
  unfold distSqV lengthSq dot vsub
  ring

lemma lengthSq_nonneg (v : Vec3) : 0 ≤ lengthSq v := by
  unfold lengthSq dot
  nlinarith [mul_self_nonneg v.x, mul_self_nonneg v.y, mul_self_nonneg v.z]

lemma gfun_swap (p1 q1 p2 q2 : Vec3) (s t : ℚ) :
    gfun p2 q2 p1 q1 t s = gfun p1 q1 p2 q2 s t := by
  unfold gfun segPoint distSqV lengthSq dot vsub addScaled vadd vscale
  ring

/-! #### clamp01 facts -/

lemma clamp01_nonneg (x : ℚ) : 0 ≤ clamp01 x := le_max_left 0 _

lemma clamp01_le_one (x : ℚ) : clamp01 x ≤ 1 :=
  max_le (by norm_num) (min_le_left 1 x)

lemma clamp01_of_nonpos {x : ℚ} (h : x ≤ 0) : clamp01 x = 0 := by
  unfold clamp01
  rw [min_eq_right (h.trans zero_le_one), max_eq_left h]

lemma clamp01_of_mem {x : ℚ} (h0 : 0 ≤ x) (h1 : x ≤ 1) : clamp01 x = x := by
  unfold clamp01
  rw [min_eq_right h1, max_eq_right h0]

lemma clamp01_of_ge_one {x : ℚ} (h : 1 ≤ x) : clamp01 x = 1 := by
  unfold clamp01
  rw [min_eq_left h, max_eq_right zero_le_one]

lemma clamp01_trichotomy (x : ℚ) :
    (x ≤ 0 ∧ clamp01 x = 0) ∨ (0 ≤ x ∧ x ≤ 1 ∧ clamp01 x = x) ∨
    (1 ≤ x ∧ clamp01 x = 1) := by
  rcases le_or_lt x 0 with h | h
  · exact Or.inl ⟨h, clamp01_of_nonpos h⟩
  · rcases le_or_lt x 1 with h1 | h1
    · exact Or.inr (Or.inl ⟨h.le, h1, clamp01_of_mem h.le h1⟩)
    · exact Or.inr (Or.inr ⟨h1.le, clamp01_of_ge_one h1.le⟩)

/-! #### Convexity of the squared-distance objective and box optimality -/

/-- Second-order expansion of `gfun` around `(S, T)`: the remainder is a
squared length, hence nonnegative. -/
lemma gfun_expand (p1 q1 p2 q2 : Vec3) (s t S T : ℚ) :
    gfun p1 q1 p2 q2 s t
      = gfun p1 q1 p2 q2 S T
        + 2 * (dot (vsub q1 p1) (vsub q1 p1) * S - dot (vsub q1 p1) (vsub q2 p2) * T
            + dot (vsub q1 p1) (vsub p1 p2)) * (s - S)
        + 2 * (dot (vsub q2 p2) (vsub q2 p2) * T - dot (vsub q1 p1) (vsub q2 p2) * S
            - dot (vsub q2 p2) (vsub p1 p2)) * (t - T)
        + lengthSq (vsub (vscale (s - S) (vsub q1 p1)) (vscale (t - T) (vsub q2 p2))) := by
  unfold gfun segPoint distSqV lengthSq dot vsub addScaled vadd vscale
  ring

/-- A point of the box satisfying the per-coordinate KKT sign conditions is a
global minimiser of `gfun` over the box. -/
lemma kkt_min (p1 q1 p2 q2 : Vec3) (S T : ℚ)
    (hS0 : 0 ≤ S) (hS1 : S ≤ 1) (hT0 : 0 ≤ T) (hT1 : T ≤ 1)
    (hsK : dot (vsub q1 p1) (vsub q1 p1) * S - dot (vsub q1 p1) (vsub q2 p2) * T
        + dot (vsub q1 p1) (vsub p1 p2) = 0 ∨
      (S = 0 ∧ 0 ≤ dot (vsub q1 p1) (vsub q1 p1) * S - dot (vsub q1 p1) (vsub q2 p2) * T
        + dot (vsub q1 p1) (vsub p1 p2)) ∨
      (S = 1 ∧ dot (vsub q1 p1) (vsub q1 p1) * S - dot (vsub q1 p1) (vsub q2 p2) * T
        + dot (vsub q1 p1) (vsub p1 p2) ≤ 0))
    (htK : dot (vsub q2 p2) (vsub q2 p2) * T - dot (vsub q1 p1) (vsub q2 p2) * S
        - dot (vsub q2 p2) (vsub p1 p2) = 0 ∨
      (T = 0 ∧ 0 ≤ dot (vsub q2 p2) (vsub q2 p2) * T - dot (vsub q1 p1) (vsub q2 p2) * S
        - dot (vsub q2 p2) (vsub p1 p2)) ∨
      (T = 1 ∧ dot (vsub q2 p2) (vsub q2 p2) * T - dot (vsub q1 p1) (vsub q2 p2) * S
        - dot (vsub q2 p2) (vsub p1 p2) ≤ 0)) :
    ∀ s t, 0 ≤ s → s ≤ 1 → 0 ≤ t → t ≤ 1 →
      gfun p1 q1 p2 q2 S T ≤ gfun p1 q1 p2 q2 s t := by
  intro s t hs0 hs1 ht0 ht1
  rw [gfun_expand p1 q1 p2 q2 s t S T]
  have hrem := lengthSq_nonneg
    (vsub (vscale (s - S) (vsub q1 p1)) (vscale (t - T) (vsub q2 p2)))
  have hterm1 : 0 ≤ 2 * (dot (vsub q1 p1) (vsub q1 p1) * S
      - dot (vsub q1 p1) (vsub q2 p2) * T + dot (vsub q1 p1) (vsub p1 p2)) * (s - S) := by
    rcases hsK with h | ⟨rfl, h⟩ | ⟨rfl, h⟩
    · rw [h]
      simp
    · nlinarith
    · nlinarith
  have hterm2 : 0 ≤ 2 * (dot (vsub q2 p2) (vsub q2 p2) * T
      - dot (vsub q1 p1) (vsub q2 p2) * S - dot (vsub q2 p2) (vsub p1 p2)) * (t - T) := by
    rcases htK with h | ⟨rfl, h⟩ | ⟨rfl, h⟩
    · rw [h]
      simp
    · nlinarith
    · nlinarith
  linarith

/-! #### Scalar KKT facts for the exit branches of the main case.
Notation: `a = d1·d1`, `e = d2·d2`, `b = d1·d2`, `c = d1·r`, `f = d2·r` with
`r = p1 - p2`; `s0` is the first parameter computed by the routine, and the
routine's `t0` is `(b*s0 + f)/e`. -/

/-- KKT conditions at the `t0 < 0` exit `(clamp01 (-c/a), 0)`. -/
lemma kkt_tlow (a b c e f : ℚ) (ha : 0 < a) (he : 0 < e) (hpos : 0 ≤ a * e - b * b)
    (hp1 : a * e - b * b = 0 → a * f - b * c = 0)
    (hp2 : a * e - b * b = 0 → b * f - c * e = 0)
    (s0 : ℚ)
    (hs0 : s0 = if a * e - b * b ≠ 0 then clamp01 ((b * f - c * e) / (a * e - b * b)) else 0)
    (hts : b * s0 + f < 0) :
    (a * clamp01 (-c / a) - b * 0 + c = 0 ∨
      (clamp01 (-c / a) = 0 ∧ 0 ≤ a * clamp01 (-c / a) - b * 0 + c) ∨
      (clamp01 (-c / a) = 1 ∧ a * clamp01 (-c / a) - b * 0 + c ≤ 0)) ∧
    b * clamp01 (-c / a) + f ≤ 0 := by
  have hs00 : 0 ≤ s0 := by
    rw [hs0]
    split
    · exact clamp01_nonneg _
    · exact le_refl 0
  have hs01 : s0 ≤ 1 := by
    rw [hs0]
    split
    · exact clamp01_le_one _
    · norm_num
  constructor
  · -- s-condition: clamp01 (-c/a) is the clamped minimiser at t = 0
    rcases clamp01_trichotomy (-c / a) with ⟨hx, hcl⟩ | ⟨hx0, hx1, hcl⟩ | ⟨hx, hcl⟩
    · refine Or.inr (Or.inl ⟨hcl, ?_⟩)
      rw [hcl]
      have h2 : -c / a * a ≤ 0 * a := mul_le_mul_of_nonneg_right hx ha.le
      rw [div_mul_cancel₀ _ (ne_of_gt ha), zero_mul] at h2
      linarith
    · refine Or.inl ?_
      rw [hcl]
      field_simp
      ring
    · refine Or.inr (Or.inr ⟨hcl, ?_⟩)
      rw [hcl]
      rw [le_div_iff₀ ha] at hx
      linarith
  · -- t-condition: the t-gradient at t = 0 is nonnegative, i.e. b*S + f ≤ 0
    rcases lt_trichotomy b 0 with hb | hb | hb
    · -- b < 0
      by_cases hf : f ≤ 0
      · have hS0 := clamp01_nonneg (-c / a)
        nlinarith
      · push_neg at hf
        have hs0pos : 0 < s0 := by
          by_contra hle
          push_neg at hle
          nlinarith
        have hd : a * e - b * b ≠ 0 := by
          intro hd0
          rw [hs0, if_neg (not_not_intro hd0)] at hs0pos
          exact lt_irrefl 0 hs0pos
        have hdpos : 0 < a * e - b * b := lt_of_le_of_ne hpos (Ne.symm hd)
        have hs0u : s0 = clamp01 ((b * f - c * e) / (a * e - b * b)) := by
          rw [hs0, if_pos hd]
        have hafbc : a * f - b * c ≤ 0 := by
          by_contra hcon
          push_neg at hcon
          have hbu : b * ((b * f - c * e) / (a * e - b * b)) + f
              = e * (a * f - b * c) / (a * e - b * b) := by
            field_simp
            ring
          have hbupos : 0 < b * ((b * f - c * e) / (a * e - b * b)) + f := by
            rw [hbu]
            exact div_pos (by nlinarith) hdpos
          have hlt : (b * f - c * e) / (a * e - b * b) < s0 := by nlinarith
          rcases clamp01_trichotomy ((b * f - c * e) / (a * e - b * b)) with
            ⟨hx, hcl⟩ | ⟨hx0, hx1, hcl⟩ | ⟨hx, hcl⟩
          · rw [hs0u, hcl] at hs0pos
            exact lt_irrefl 0 hs0pos
          · rw [hs0u, hcl] at hlt
            exact lt_irrefl _ hlt
          · rw [hs0u, hcl] at hlt
            linarith
        have hbc : 0 < b * c := by nlinarith
        have hc : c < 0 := by nlinarith
        rcases clamp01_trichotomy (-c / a) with ⟨hx, hcl⟩ | ⟨hx0, hx1, hcl⟩ | ⟨hx, hcl⟩
        · have : 0 < -c / a := div_pos (by linarith) ha
          linarith
        · rw [hcl]
          have h3 : b * (-c / a) + f = (a * f - b * c) / a := by
            field_simp
            ring
          rw [h3]
          rw [div_nonpos_iff]
          exact Or.inr ⟨hafbc, ha.le⟩
        · rw [hcl]
          nlinarith
    · -- b = 0
      subst hb
      have hf : f < 0 := by linarith [hts]
      linarith [hf, (zero_mul (clamp01 (-c / a))).le]
    · -- b > 0
      have hf : f < 0 := by nlinarith
      have hkey : a * f - b * c ≤ 0 ∨ s0 = 1 := by
        by_cases hd : a * e - b * b = 0
        · exact Or.inl (le_of_eq (hp1 hd))
        · have hdpos : 0 < a * e - b * b := lt_of_le_of_ne hpos (Ne.symm hd)
          by_cases hafbc : a * f - b * c ≤ 0
          · exact Or.inl hafbc
          · push_neg at hafbc
            have hs0u : s0 = clamp01 ((b * f - c * e) / (a * e - b * b)) := by
              rw [hs0, if_pos hd]
            have hbu : b * ((b * f - c * e) / (a * e - b * b)) + f
                = e * (a * f - b * c) / (a * e - b * b) := by
              field_simp
              ring
            have hbupos : 0 < b * ((b * f - c * e) / (a * e - b * b)) + f := by
              rw [hbu]
              exact div_pos (by nlinarith) hdpos
            have hlt : s0 < (b * f - c * e) / (a * e - b * b) := by nlinarith
            rcases clamp01_trichotomy ((b * f - c * e) / (a * e - b * b)) with
              ⟨hx, hcl⟩ | ⟨hx0, hx1, hcl⟩ | ⟨hx, hcl⟩
            · rw [hs0u, hcl] at hlt
              linarith [hs00, hs0u ▸ (hcl ▸ hlt)]
            · rw [hs0u, hcl] at hlt
              exact absurd hlt (lt_irrefl _)
            · exact Or.inr (by rw [hs0u, hcl])
      rcases hkey with hafbc | hs1
      · rcases clamp01_trichotomy (-c / a) with ⟨hx, hcl⟩ | ⟨hx0, hx1, hcl⟩ | ⟨hx, hcl⟩
        · rw [hcl]
          linarith
        · rw [hcl]
          have h3 : b * (-c / a) + f = (a * f - b * c) / a := by
            field_simp
            ring
          rw [h3, div_nonpos_iff]
          exact Or.inr ⟨hafbc, ha.le⟩
        · rw [hcl]
          rw [le_div_iff₀ ha] at hx
          have h2 : b * 1 ≤ b * (-c / a) := mul_le_mul_of_nonneg_left
            (by rw [le_div_iff₀ ha]; linarith) hb.le
          have h3 : b * (-c / a) + f = (a * f - b * c) / a := by
            field_simp
            ring
          have h4 : (a * f - b * c) / a ≤ 0 := by
            rw [div_nonpos_iff]
            exact Or.inr ⟨hafbc, ha.le⟩
          linarith
      · have hbf : b * 1 + f < 0 := by
          rw [hs1] at hts
          exact hts
        have hS1 := clamp01_le_one (-c / a)
        nlinarith

/-- KKT conditions at the in-range exit `(s0, (b*s0+f)/e)`. -/
lemma kkt_tmid (a b c e f : ℚ) (he : 0 < e) (hpos : 0 ≤ a * e - b * b)
    (hp2 : a * e - b * b = 0 → b * f - c * e = 0)
    (s0 : ℚ)
    (hs0 : s0 = if a * e - b * b ≠ 0 then clamp01 ((b * f - c * e) / (a * e - b * b)) else 0) :
    (a * s0 - b * ((b * s0 + f) / e) + c = 0 ∨
      (s0 = 0 ∧ 0 ≤ a * s0 - b * ((b * s0 + f) / e) + c) ∨
      (s0 = 1 ∧ a * s0 - b * ((b * s0 + f) / e) + c ≤ 0)) ∧
    e * ((b * s0 + f) / e) - b * s0 - f = 0 := by
  have htK : e * ((b * s0 + f) / e) - b * s0 - f = 0 := by
    field_simp
  refine ⟨?_, htK⟩
  have hgs : a * s0 - b * ((b * s0 + f) / e) + c
      = ((a * e - b * b) * s0 - (b * f - c * e)) / e := by
    field_simp
    ring
  by_cases hd : a * e - b * b = 0
  · have hs00 : s0 = 0 := by rw [hs0, if_neg (not_not_intro hd)]
    refine Or.inr (Or.inl ⟨hs00, ?_⟩)
    rw [hgs, hs00, hd, hp2 hd]
    norm_num
  · have hdpos : 0 < a * e - b * b := lt_of_le_of_ne hpos (Ne.symm hd)
    have hs0u : s0 = clamp01 ((b * f - c * e) / (a * e - b * b)) := by
      rw [hs0, if_pos hd]
    rcases clamp01_trichotomy ((b * f - c * e) / (a * e - b * b)) with
      ⟨hx, hcl⟩ | ⟨hx0, hx1, hcl⟩ | ⟨hx, hcl⟩
    · have hbfce : b * f - c * e ≤ 0 := by
        rcases div_nonpos_iff.mp hx with ⟨_h1, h2⟩ | ⟨h1, _h2⟩
        · linarith
        · exact h1
      refine Or.inr (Or.inl ⟨by rw [hs0u, hcl], ?_⟩)
      rw [hgs, hs0u, hcl]
      apply div_nonneg _ he.le
      nlinarith
    · refine Or.inl ?_
      rw [hgs, hs0u, hcl]
      rw [div_eq_zero_iff]
      refine Or.inl ?_
      field_simp
    · have hge : a * e - b * b ≤ b * f - c * e := by
        rw [le_div_iff₀ hdpos] at hx
        linarith
      refine Or.inr (Or.inr ⟨by rw [hs0u, hcl], ?_⟩)
      rw [hgs, hs0u, hcl]
      rw [div_nonpos_iff]
      refine Or.inr ⟨?_, he.le⟩
      nlinarith

/-- KKT conditions at the `t0 > 1` exit `(clamp01 ((b-c)/a), 1)`: obtained
from `kkt_tlow` through the substitution `t ↦ 1 - t`, which maps
`(b, c, f) ↦ (-b, c - b, e - f)`. -/
lemma kkt_thigh (a b c e f : ℚ) (ha : 0 < a) (he : 0 < e) (hpos : 0 ≤ a * e - b * b)
    (hp1 : a * e - b * b = 0 → a * f - b * c = 0)
    (hp2 : a * e - b * b = 0 → b * f - c * e = 0)
    (s0 : ℚ)
    (hs0 : s0 = if a * e - b * b ≠ 0 then clamp01 ((b * f - c * e) / (a * e - b * b)) else 0)
    (hts : e < b * s0 + f) :
    (a * clamp01 ((b - c) / a) - b * 1 + c = 0 ∨
      (clamp01 ((b - c) / a) = 0 ∧ 0 ≤ a * clamp01 ((b - c) / a) - b * 1 + c) ∨
      (clamp01 ((b - c) / a) = 1 ∧ a * clamp01 ((b - c) / a) - b * 1 + c ≤ 0)) ∧
    e ≤ b * clamp01 ((b - c) / a) + f := by
  have hpos' : 0 ≤ a * e - (-b) * (-b) := by
    have h : a * e - (-b) * (-b) = a * e - b * b := by ring
    rw [h]
    exact hpos
  have hp1' : a * e - (-b) * (-b) = 0 → a * (e - f) - (-b) * (c - b) = 0 := by
    intro h
    have h0 : a * e - b * b = 0 := by linear_combination h
    linear_combination h0 - hp1 h0
  have hp2' : a * e - (-b) * (-b) = 0 → (-b) * (e - f) - (c - b) * e = 0 := by
    intro h
    have h0 : a * e - b * b = 0 := by linear_combination h
    linear_combination hp2 h0
  have hs0' : s0 = if a * e - (-b) * (-b) ≠ 0
      then clamp01 (((-b) * (e - f) - (c - b) * e) / (a * e - (-b) * (-b))) else 0 := by
    rw [hs0]
    have e1 : a * e - (-b) * (-b) = a * e - b * b := by ring
    have e2 : (-b) * (e - f) - (c - b) * e = b * f - c * e := by ring
    rw [e1, e2]
  have hts' : (-b) * s0 + (e - f) < 0 := by linarith
  have H := kkt_tlow a (-b) (c - b) e (e - f) ha he hpos' hp1' hp2' s0 hs0' hts'
  have harg : -(c - b) / a = (b - c) / a := by ring_nf
  rw [harg] at H
  constructor
  · rcases H.1 with h | ⟨h1, h2⟩ | ⟨h1, h2⟩
    · exact Or.inl (by linarith)
    · exact Or.inr (Or.inl ⟨h1, by linarith⟩)
    · exact Or.inr (Or.inr ⟨h1, by linarith⟩)
  · linarith [H.2]

/-! #### Lagrange identity: the main-branch denominator is nonnegative, and
its vanishing makes the two mixed determinants vanish. -/

lemma lagrange_identity (d1 d2 : Vec3) :
    dot d1 d1 * dot d2 d2 - dot d1 d2 * dot d1 d2
      = (d1.x * d2.y - d1.y * d2.x)^2 + (d1.x * d2.z - d1.z * d2.x)^2
        + (d1.y * d2.z - d1.z * d2.y)^2 := by
  unfold dot
  ring

lemma denom_nonneg (d1 d2 : Vec3) :
    0 ≤ dot d1 d1 * dot d2 d2 - dot d1 d2 * dot d1 d2 := by
  rw [lagrange_identity]
  positivity

lemma parallel_facts (d1 d2 rv : Vec3)
    (h : dot d1 d1 * dot d2 d2 - dot d1 d2 * dot d1 d2 = 0) :
    dot d1 d1 * dot d2 rv - dot d1 d2 * dot d1 rv = 0 ∧
    dot d1 d2 * dot d2 rv - dot d1 rv * dot d2 d2 = 0 := by
  have hid := lagrange_identity d1 d2
  rw [h] at hid
  have h1 : d1.x * d2.y - d1.y * d2.x = 0 := by
    nlinarith [sq_nonneg (d1.x * d2.y - d1.y * d2.x), sq_nonneg (d1.x * d2.z - d1.z * d2.x),
      sq_nonneg (d1.y * d2.z - d1.z * d2.y)]
  have h2 : d1.x * d2.z - d1.z * d2.x = 0 := by
    nlinarith [sq_nonneg (d1.x * d2.y - d1.y * d2.x), sq_nonneg (d1.x * d2.z - d1.z * d2.x),
      sq_nonneg (d1.y * d2.z - d1.z * d2.y)]
  have h3 : d1.y * d2.z - d1.z * d2.y = 0 := by
    nlinarith [sq_nonneg (d1.x * d2.y - d1.y * d2.x), sq_nonneg (d1.x * d2.z - d1.z * d2.x),
      sq_nonneg (d1.y * d2.z - d1.z * d2.y)]
  constructor
  · unfold dot
    linear_combination (d1.x * rv.y - d1.y * rv.x) * h1 + (d1.x * rv.z - d1.z * rv.x) * h2
      + (d1.y * rv.z - d1.z * rv.y) * h3
  · unfold dot
    linear_combination (d2.x * rv.y - d2.y * rv.x) * h1 + (d2.x * rv.z - d2.z * rv.x) * h2
      + (d2.y * rv.z - d2.z * rv.y) * h3

/-- The first parameter computed by the main branch of
`_closestPointSegmentToSegment` (physics.js lines 268-275). -/
def mainS0 (a b c e f : ℚ) : ℚ :=
  if a * e - b * b ≠ 0 then clamp01 ((b * f - c * e) / (a * e - b * b)) else 0

/-- The final `(s, t)` parameter pair computed by the main branch of
`_closestPointSegmentToSegment` (physics.js lines 268-285). -/
def mainST (a b c e f : ℚ) : ℚ × ℚ :=
  if (b * mainS0 a b c e f + f) / e < 0 then (clamp01 (-c / a), 0)
  else if (b * mainS0 a b c e f + f) / e > 1 then (clamp01 ((b - c) / a), 1)
  else (mainS0 a b c e f, (b * mainS0 a b c e f + f) / e)

/-- The final parameter pair `(S, T)` selected by the main branch lies in the
unit box and satisfies both KKT sign conditions. -/
lemma main_choice (a b c e f : ℚ) (ha : 0 < a) (he : 0 < e) (hpos : 0 ≤ a * e - b * b)
    (hp1 : a * e - b * b = 0 → a * f - b * c = 0)
    (hp2 : a * e - b * b = 0 → b * f - c * e = 0) :
    (0 ≤ (mainST a b c e f).1 ∧ (mainST a b c e f).1 ≤ 1 ∧
      0 ≤ (mainST a b c e f).2 ∧ (mainST a b c e f).2 ≤ 1) ∧
    (a * (mainST a b c e f).1 - b * (mainST a b c e f).2 + c = 0 ∨
      ((mainST a b c e f).1 = 0 ∧ 0 ≤ a * (mainST a b c e f).1 - b * (mainST a b c e f).2 + c) ∨
      ((mainST a b c e f).1 = 1 ∧ a * (mainST a b c e f).1 - b * (mainST a b c e f).2 + c ≤ 0)) ∧
    (e * (mainST a b c e f).2 - b * (mainST a b c e f).1 - f = 0 ∨
      ((mainST a b c e f).2 = 0 ∧ 0 ≤ e * (mainST a b c e f).2 - b * (mainST a b c e f).1 - f) ∨
      ((mainST a b c e f).2 = 1 ∧ e * (mainST a b c e f).2 - b * (mainST a b c e f).1 - f ≤ 0)) := by
  have hs00 : 0 ≤ mainS0 a b c e f := by
    unfold mainS0
    split
    · exact clamp01_nonneg _
    · exact le_refl 0
  have hs01 : mainS0 a b c e f ≤ 1 := by
    unfold mainS0
    split
    · exact clamp01_le_one _
    · exact zero_le_one
  unfold mainST
  by_cases hlt : (b * mainS0 a b c e f + f) / e < 0
  · rw [if_pos hlt]
    have hts : b * mainS0 a b c e f + f < 0 := by
      rcases div_neg_iff.mp hlt with ⟨_h1, h2⟩ | ⟨h1, _h2⟩
      · linarith
      · exact h1
    have H := kkt_tlow a b c e f ha he hpos hp1 hp2 (mainS0 a b c e f) rfl hts
    refine ⟨⟨clamp01_nonneg _, clamp01_le_one _, le_refl 0, zero_le_one⟩, H.1, ?_⟩
    exact Or.inr (Or.inl ⟨rfl, by linarith [H.2]⟩)
  · rw [if_neg hlt]
    by_cases hgt : (b * mainS0 a b c e f + f) / e > 1
    · rw [if_pos hgt]
      have hts : e < b * mainS0 a b c e f + f := (one_lt_div he).mp hgt
      have H := kkt_thigh a b c e f ha he hpos hp1 hp2 (mainS0 a b c e f) rfl hts
      refine ⟨⟨clamp01_nonneg _, clamp01_le_one _, zero_le_one, le_refl 1⟩, ?_, ?_⟩
      · rcases H.1 with h | ⟨h1, h2⟩ | ⟨h1, h2⟩
        · exact Or.inl (by linarith)
        · exact Or.inr (Or.inl ⟨h1, by linarith⟩)
        · exact Or.inr (Or.inr ⟨h1, by linarith⟩)
      · exact Or.inr (Or.inr ⟨rfl, by linarith [H.2]⟩)
    · rw [if_neg hgt]
      push_neg at hlt hgt
      have H := kkt_tmid a b c e f he hpos hp2 (mainS0 a b c e f) rfl
      exact ⟨⟨hs00, hs01, hlt, hgt⟩, H.1, Or.inl H.2⟩

/-- In the main (nondegenerate) branch the routine returns the segment points
at the `mainST` parameters, and that squared distance is minimal over the
whole parameter box. -/
lemma mainBranch_opt (p1 q1 p2 q2 : Vec3)
    (hA : ¬ dot (vsub q1 p1) (vsub q1 p1) ≤ 1/1000000)
    (hE : ¬ dot (vsub q2 p2) (vsub q2 p2) ≤ 1/1000000) :
    (closestPointSegmentToSegment p1 q1 p2 q2).distSq
      = gfun p1 q1 p2 q2
          (mainST (dot (vsub q1 p1) (vsub q1 p1)) (dot (vsub q1 p1) (vsub q2 p2))
            (dot (vsub q1 p1) (vsub p1 p2)) (dot (vsub q2 p2) (vsub q2 p2))
            (dot (vsub q2 p2) (vsub p1 p2))).1
          (mainST (dot (vsub q1 p1) (vsub q1 p1)) (dot (vsub q1 p1) (vsub q2 p2))
            (dot (vsub q1 p1) (vsub p1 p2)) (dot (vsub q2 p2) (vsub q2 p2))
            (dot (vsub q2 p2) (vsub p1 p2))).2 ∧
    (∀ s t, 0 ≤ s → s ≤ 1 → 0 ≤ t → t ≤ 1 →
      (closestPointSegmentToSegment p1 q1 p2 q2).distSq ≤ gfun p1 q1 p2 q2 s t) := by
  have ha : 0 < dot (vsub q1 p1) (vsub q1 p1) := by
    push_neg at hA
    linarith
  have he : 0 < dot (vsub q2 p2) (vsub q2 p2) := by
    push_neg at hE
    linarith
  have key := main_choice (dot (vsub q1 p1) (vsub q1 p1)) (dot (vsub q1 p1) (vsub q2 p2))
    (dot (vsub q1 p1) (vsub p1 p2)) (dot (vsub q2 p2) (vsub q2 p2))
    (dot (vsub q2 p2) (vsub p1 p2)) ha he
    (denom_nonneg (vsub q1 p1) (vsub q2 p2))
    (fun h => (parallel_facts (vsub q1 p1) (vsub q2 p2) (vsub p1 p2) h).1)
    (fun h => (parallel_facts (vsub q1 p1) (vsub q2 p2) (vsub p1 p2) h).2)
  have hres : (closestPointSegmentToSegment p1 q1 p2 q2).distSq
      = gfun p1 q1 p2 q2
          (mainST (dot (vsub q1 p1) (vsub q1 p1)) (dot (vsub q1 p1) (vsub q2 p2))
            (dot (vsub q1 p1) (vsub p1 p2)) (dot (vsub q2 p2) (vsub q2 p2))
            (dot (vsub q2 p2) (vsub p1 p2))).1
          (mainST (dot (vsub q1 p1) (vsub q1 p1)) (dot (vsub q1 p1) (vsub q2 p2))
            (dot (vsub q1 p1) (vsub p1 p2)) (dot (vsub q2 p2) (vsub q2 p2))
            (dot (vsub q2 p2) (vsub p1 p2))).2 := by
    simp only [closestPointSegmentToSegment]
    rw [if_neg (fun h => hA h.1), if_neg hA, if_neg hE]
    rfl
  refine ⟨hres, ?_⟩
  intro s t hs0 hs1 ht0 ht1
  rw [hres]
  exact kkt_min p1 q1 p2 q2 _ _ key.1.1 key.1.2.1 key.1.2.2.1 key.1.2.2.2
    key.2.1 key.2.2 s t hs0 hs1 ht0 ht1

/-- Scalar fact: the clamped 1-D projection parameter minimises the
point-to-segment quadratic over `[0,1]`. -/
lemma quad1d (e f : ℚ) (he : 0 < e) (t : ℚ) (ht0 : 0 ≤ t) (ht1 : t ≤ 1) :
    e * (clamp01 (f / e))^2 - 2 * f * (clamp01 (f / e)) ≤ e * t^2 - 2 * f * t := by
  rcases clamp01_trichotomy (f / e) with ⟨hx, hcl⟩ | ⟨hx0, hx1, hcl⟩ | ⟨hx, hcl⟩
  · rw [hcl]
    have hf : f ≤ 0 := by
      rcases div_nonpos_iff.mp hx with ⟨_h1, h2⟩ | ⟨h1, _h2⟩
      · linarith
      · exact h1
    nlinarith
  · rw [hcl]
    have h2 : e * (f / e)^2 - 2 * f * (f / e) = -(f^2 / e) := by
      field_simp
      ring
    have h3 : e * t^2 - 2 * f * t + f^2 / e = (e * t - f)^2 / e := by
      field_simp
      ring
    have h4 : 0 ≤ (e * t - f)^2 / e := div_nonneg (sq_nonneg _) he.le
    linarith
  · rw [hcl]
    have hf : e ≤ f := by
      rw [le_div_iff₀ he] at hx
      linarith
    nlinarith [mul_nonneg (sub_nonneg.mpr ht1) (by nlinarith : (0:ℚ) ≤ 2 * f - e * (t + 1))]

/-- The clamped projection of a point onto a (nondegenerate) segment is the
closest point of the segment. -/
lemma pointSeg_min (p2 q2 pt : Vec3) (he : 0 < dot (vsub q2 p2) (vsub q2 p2)) :
    ∀ t, 0 ≤ t → t ≤ 1 →
      distSqV pt (addScaled p2 (vsub q2 p2)
          (clamp01 (dot (vsub q2 p2) (vsub pt p2) / dot (vsub q2 p2) (vsub q2 p2))))
        ≤ distSqV pt (addScaled p2 (vsub q2 p2) t) := by
  have hq : ∀ u : ℚ, distSqV pt (addScaled p2 (vsub q2 p2) u)
      = dot (vsub q2 p2) (vsub q2 p2) * u^2 - 2 * (dot (vsub q2 p2) (vsub pt p2)) * u
        + distSqV pt p2 := by
    intro u
    unfold distSqV lengthSq dot vsub addScaled vadd vscale
    ring
  intro t ht0 ht1
  rw [hq, hq]
  have := quad1d (dot (vsub q2 p2) (vsub q2 p2)) (dot (vsub q2 p2) (vsub pt p2)) he t ht0 ht1
  linarith

lemma mainS0_nonneg (a b c e f : ℚ) : 0 ≤ mainS0 a b c e f := by
  unfold mainS0
  split
  · exact clamp01_nonneg _
  · exact le_refl 0

lemma mainS0_le_one (a b c e f : ℚ) : mainS0 a b c e f ≤ 1 := by
  unfold mainS0
  split
  · exact clamp01_le_one _
  · exact zero_le_one

lemma mainST_bounds (a b c e f : ℚ) :
    0 ≤ (mainST a b c e f).1 ∧ (mainST a b c e f).1 ≤ 1 ∧
    0 ≤ (mainST a b c e f).2 ∧ (mainST a b c e f).2 ≤ 1 := by
  unfold mainST
  split
  · exact ⟨clamp01_nonneg _, clamp01_le_one _, le_refl 0, zero_le_one⟩
  · split
    · exact ⟨clamp01_nonneg _, clamp01_le_one _, zero_le_one, le_refl 1⟩
    · next h1 h2 =>
      push_neg at h1 h2
      exact ⟨mainS0_nonneg a b c e f, mainS0_le_one a b c e f, h1, h2⟩

/-- C8: `_closestPointSegmentToSegment` (i) returns the same squared distance
when the two segment arguments are swapped, for every input; (ii) when the
first segment's squared length is ≤ 1e-6 (and the second's is not), it returns
exactly the solution of the reduced point-to-segment problem — `point1` is
`p1`, `point2` lies on the second segment, the distance is attained at those
points and is minimal over the whole segment; (iii) symmetrically when the
second segment is degenerate; (iv) when both are degenerate it returns the
point-to-point solution `(p1, p2, |p1-p2|²)`. -/
theorem closestPointSegmentToSegment_spec (p1 q1 p2 q2 : Vec3) :
    ((closestPointSegmentToSegment p1 q1 p2 q2).distSq
        = (closestPointSegmentToSegment p2 q2 p1 q1).distSq) ∧
    (dot (vsub q1 p1) (vsub q1 p1) ≤ 1/1000000 →
      ¬ dot (vsub q2 p2) (vsub q2 p2) ≤ 1/1000000 →
      (closestPointSegmentToSegment p1 q1 p2 q2).point1 = p1 ∧
      (∃ t, 0 ≤ t ∧ t ≤ 1 ∧
        (closestPointSegmentToSegment p1 q1 p2 q2).point2 = segPoint p2 q2 t) ∧
      (closestPointSegmentToSegment p1 q1 p2 q2).distSq
        = distSqV p1 (closestPointSegmentToSegment p1 q1 p2 q2).point2 ∧
      (∀ t, 0 ≤ t → t ≤ 1 →
        (closestPointSegmentToSegment p1 q1 p2 q2).distSq
          ≤ distSqV p1 (segPoint p2 q2 t))) ∧
    (¬ dot (vsub q1 p1) (vsub q1 p1) ≤ 1/1000000 →
      dot (vsub q2 p2) (vsub q2 p2) ≤ 1/1000000 →
      (closestPointSegmentToSegment p1 q1 p2 q2).point2 = p2 ∧
      (∃ s, 0 ≤ s ∧ s ≤ 1 ∧
        (closestPointSegmentToSegment p1 q1 p2 q2).point1 = segPoint p1 q1 s) ∧
      (closestPointSegmentToSegment p1 q1 p2 q2).distSq
        = distSqV (closestPointSegmentToSegment p1 q1 p2 q2).point1 p2 ∧
      (∀ s, 0 ≤ s → s ≤ 1 →
        (closestPointSegmentToSegment p1 q1 p2 q2).distSq
          ≤ distSqV (segPoint p1 q1 s) p2)) ∧
    (dot (vsub q1 p1) (vsub q1 p1) ≤ 1/1000000 →
      dot (vsub q2 p2) (vsub q2 p2) ≤ 1/1000000 →
      closestPointSegmentToSegment p1 q1 p2 q2 = ⟨p1, p2, distSqV p1 p2⟩) := by
  have hdeg11 : ∀ (u1 v1 u2 v2 : Vec3),
      dot (vsub v1 u1) (vsub v1 u1) ≤ 1/1000000 →
      dot (vsub v2 u2) (vsub v2 u2) ≤ 1/1000000 →
      closestPointSegmentToSegment u1 v1 u2 v2 = ⟨u1, u2, distSqV u1 u2⟩ := by
    intro u1 v1 u2 v2 h1 h2
    simp only [closestPointSegmentToSegment]
    rw [if_pos ⟨h1, h2⟩]
  have hdeg2 : ∀ (u1 v1 u2 v2 : Vec3),
      dot (vsub v1 u1) (vsub v1 u1) ≤ 1/1000000 →
      ¬ dot (vsub v2 u2) (vsub v2 u2) ≤ 1/1000000 →
      closestPointSegmentToSegment u1 v1 u2 v2
        = ⟨u1,
           addScaled u2 (vsub v2 u2)
             (clamp01 (dot (vsub v2 u2) (vsub u1 u2) / dot (vsub v2 u2) (vsub v2 u2))),
           distSqV u1 (addScaled u2 (vsub v2 u2)
             (clamp01 (dot (vsub v2 u2) (vsub u1 u2) / dot (vsub v2 u2) (vsub v2 u2))))⟩ := by
    intro u1 v1 u2 v2 h1 h2
    simp only [closestPointSegmentToSegment]
    rw [if_neg (fun h => h2 h.2), if_pos h1]
  have hdeg3 : ∀ (u1 v1 u2 v2 : Vec3),
      ¬ dot (vsub v1 u1) (vsub v1 u1) ≤ 1/1000000 →
      dot (vsub v2 u2) (vsub v2 u2) ≤ 1/1000000 →
      closestPointSegmentToSegment u1 v1 u2 v2
        = ⟨addScaled u1 (vsub v1 u1)
             (clamp01 (-(dot (vsub v1 u1) (vsub u1 u2)) / dot (vsub v1 u1) (vsub v1 u1))),
           u2,
           distSqV (addScaled u1 (vsub v1 u1)
             (clamp01 (-(dot (vsub v1 u1) (vsub u1 u2)) / dot (vsub v1 u1) (vsub v1 u1)))) u2⟩ := by
    intro u1 v1 u2 v2 h1 h2
    simp only [closestPointSegmentToSegment]
    rw [if_neg (fun h => h1 h.1), if_neg h1, if_pos h2]
  refine ⟨?_, ?_, ?_, hdeg11 p1 q1 p2 q2⟩
  · -- symmetry of the squared distance
    by_cases hA1 : dot (vsub q1 p1) (vsub q1 p1) ≤ 1/1000000 <;>
      by_cases hE1 : dot (vsub q2 p2) (vsub q2 p2) ≤ 1/1000000
    · rw [hdeg11 p1 q1 p2 q2 hA1 hE1, hdeg11 p2 q2 p1 q1 hE1 hA1]
      exact distSqV_comm p1 p2
    · rw [hdeg2 p1 q1 p2 q2 hA1 hE1, hdeg3 p2 q2 p1 q1 hE1 hA1]
      have harg : -(dot (vsub q2 p2) (vsub p2 p1)) = dot (vsub q2 p2) (vsub p1 p2) := by
        unfold dot vsub
        ring
      rw [harg]
      exact distSqV_comm _ _
    · rw [hdeg3 p1 q1 p2 q2 hA1 hE1, hdeg2 p2 q2 p1 q1 hE1 hA1]
      have harg : -(dot (vsub q1 p1) (vsub p1 p2)) = dot (vsub q1 p1) (vsub p2 p1) := by
        unfold dot vsub
        ring
      rw [harg]
      exact distSqV_comm _ _
    · have h1 := mainBranch_opt p1 q1 p2 q2 hA1 hE1
      have h2 := mainBranch_opt p2 q2 p1 q1 hE1 hA1
      have b1 := mainST_bounds (dot (vsub q1 p1) (vsub q1 p1)) (dot (vsub q1 p1) (vsub q2 p2))
        (dot (vsub q1 p1) (vsub p1 p2)) (dot (vsub q2 p2) (vsub q2 p2))
        (dot (vsub q2 p2) (vsub p1 p2))
      have b2 := mainST_bounds (dot (vsub q2 p2) (vsub q2 p2)) (dot (vsub q2 p2) (vsub q1 p1))
        (dot (vsub q2 p2) (vsub p2 p1)) (dot (vsub q1 p1) (vsub q1 p1))
        (dot (vsub q1 p1) (vsub p2 p1))
      apply le_antisymm
      · calc (closestPointSegmentToSegment p1 q1 p2 q2).distSq
            ≤ gfun p1 q1 p2 q2 _ _ := h1.2 _ _ b2.2.2.1 b2.2.2.2 b2.1 b2.2.1
          _ = gfun p2 q2 p1 q1 _ _ := (gfun_swap p1 q1 p2 q2 _ _).symm
          _ = (closestPointSegmentToSegment p2 q2 p1 q1).distSq := h2.1.symm
      · calc (closestPointSegmentToSegment p2 q2 p1 q1).distSq
            ≤ gfun p2 q2 p1 q1 _ _ := h2.2 _ _ b1.2.2.1 b1.2.2.2 b1.1 b1.2.1
          _ = gfun p1 q1 p2 q2 _ _ := gfun_swap p1 q1 p2 q2 _ _
          _ = (closestPointSegmentToSegment p1 q1 p2 q2).distSq := h1.1.symm
  · -- first segment degenerate
    intro hA1 hE1
    have he : 0 < dot (vsub q2 p2) (vsub q2 p2) := by
      push_neg at hE1
      linarith
    rw [hdeg2 p1 q1 p2 q2 hA1 hE1]
    refine ⟨rfl, ⟨_, clamp01_nonneg _, clamp01_le_one _, rfl⟩, rfl, ?_⟩
    intro t ht0 ht1
    exact pointSeg_min p2 q2 p1 he t ht0 ht1
  · -- second segment degenerate
    intro hA1 hE1
    have ha : 0 < dot (vsub q1 p1) (vsub q1 p1) := by
      push_neg at hA1
      linarith
    rw [hdeg3 p1 q1 p2 q2 hA1 hE1]
    have harg : -(dot (vsub q1 p1) (vsub p1 p2)) = dot (vsub q1 p1) (vsub p2 p1) := by
      unfold dot vsub
      ring
    refine ⟨rfl, ⟨_, clamp01_nonneg _, clamp01_le_one _, rfl⟩, rfl, ?_⟩
    intro s hs0 hs1
    rw [harg, distSqV_comm _ p2, distSqV_comm (segPoint p1 q1 s) p2]
    exact pointSeg_min p1 q1 p2 ha s hs0 hs1

/-- Witness for C8 at a concrete input: a degenerate first segment against the
segment from `(2,0,0)` to `(2,1,0)` — swap symmetry holds, `point1` is the
degenerate point, and the returned distance is minimal over the second
segment. -/
theorem closestPointSegmentToSegment_spec_witness :
    ((closestPointSegmentToSegment ⟨0, 0, 0⟩ ⟨0, 0, 0⟩ ⟨2, 0, 0⟩ ⟨2, 1, 0⟩).distSq
        = (closestPointSegmentToSegment ⟨2, 0, 0⟩ ⟨2, 1, 0⟩ ⟨0, 0, 0⟩ ⟨0, 0, 0⟩).distSq) ∧
    ((closestPointSegmentToSegment ⟨0, 0, 0⟩ ⟨0, 0, 0⟩ ⟨2, 0, 0⟩ ⟨2, 1, 0⟩).point1
        = (⟨0, 0, 0⟩ : Vec3)) ∧
    (∀ t, 0 ≤ t → t ≤ 1 →
      (closestPointSegmentToSegment ⟨0, 0, 0⟩ ⟨0, 0, 0⟩ ⟨2, 0, 0⟩ ⟨2, 1, 0⟩).distSq
        ≤ distSqV ⟨0, 0, 0⟩ (segPoint ⟨2, 0, 0⟩ ⟨2, 1, 0⟩ t)) := by
  have h := closestPointSegmentToSegment_spec ⟨0, 0, 0⟩ ⟨0, 0, 0⟩ ⟨2, 0, 0⟩ ⟨2, 1, 0⟩
  have hA : dot (vsub (⟨0, 0, 0⟩ : Vec3) ⟨0, 0, 0⟩) (vsub (⟨0, 0, 0⟩ : Vec3) ⟨0, 0, 0⟩)
      ≤ 1/1000000 := by
    norm_num [dot, vsub]
  have hE : ¬ dot (vsub (⟨2, 1, 0⟩ : Vec3) ⟨2, 0, 0⟩) (vsub (⟨2, 1, 0⟩ : Vec3) ⟨2, 0, 0⟩)
      ≤ 1/1000000 := by
    norm_num [dot, vsub]
  exact ⟨h.1, (h.2.1 hA hE).1, (h.2.1 hA hE).2.2.2⟩

end LetsFPS
